import Mathlib

/-!
Shallow embedding of `Grid-Tools.extension/.../Grid-Based Numbering.pushbutton/script.py`.

The script runs inside a BIM host (Revit, via pyRevit).  Host-owned services
(geometry kernel, selection UI, transactions, parameter bindings) are modelled
explicitly: the curve-intersection call is an oracle function supplied as an
input, documents are finite lists of elements plus a parameter-binding map,
transactions are recorded as a trace.

Numeric modelling: the host's `XYZ` coordinates are floating point; the script
only ever *compares* distances (`dist < min_dist`, `sort(key=distance)`) and
never consumes a distance value otherwise.  We model coordinates as exact
integers (every proof below is a generic order argument that works verbatim
over any linearly ordered commutative ring) and `XYZ.DistanceTo` by the
*squared* Euclidean distance `distSqTo`, which is a strictly monotone image of
the true distance and therefore induces exactly the same comparisons and the
same sort order.
-/

namespace GridTools

/-- A 3D point (the host's `XYZ`), with exact coordinates. -/
structure XYZ where
  x : ℤ
  y : ℤ
  z : ℤ
deriving DecidableEq, Repr

/-- Squared Euclidean distance; models `XYZ.DistanceTo`, which the script uses
only in order comparisons (see file header). -/
def XYZ.distSqTo (p q : XYZ) : ℤ :=
  (p.x - q.x) ^ 2 + (p.y - q.y) ^ 2 + (p.z - q.z) ^ 2

/-- An element's `Location` as the script probes it (`script.py` lines 127-141):
`loc.Point` succeeds for point locations; otherwise `loc.Curve.Evaluate(0.5, True)`
yields the curve midpoint; otherwise there is no usable location. -/
inductive Location where
  | point (p : XYZ)
  | curve (midpoint : XYZ)
  | noLoc
deriving DecidableEq, Repr

/-- Embeds `get_element_location` (lines 127-141). -/
def get_element_location : Location → Option XYZ
  | Location.point p => some p
  | Location.curve m => some m
  | Location.noLoc => Option.none

/-- A grid element: its name and the direction of its `Curve`.  `gid` is the
host element id, carried so distinct grid elements stay distinct. -/
structure Grid where
  gid : Nat
  name : String
  direction : XYZ
deriving DecidableEq, Repr

/-- The host's `SetComparisonResult` enumeration (the script only tests for
`Overlap`, line 160). -/
inductive SetComparisonResult where
  | Overlap
  | Disjoint
  | Equal
  | Subset
  | Superset
deriving DecidableEq, Repr

/-- The host geometry kernel's `Curve.Intersect(curve, out results)` call,
supplied as an oracle: for two grids it reports a comparison result and the
list of intersection points (the `IntersectionResultArray`). -/
def IntersectOracle : Type := Grid → Grid → SetComparisonResult × List XYZ

/-- Embeds `get_grid_intersections` (lines 143-163): for every vertical grid
`v` and horizontal grid `h` (in loop order) the pair contributes the tuple
`(first intersection point, v, h)` exactly when the oracle reports `Overlap`
with a non-empty result array. -/
def get_grid_intersections (intersect : IntersectOracle)
    (v_grids h_grids : List Grid) : List (XYZ × Grid × Grid) :=
  v_grids.flatMap (fun v =>
    h_grids.filterMap (fun hg =>
      match intersect v hg with
      | (SetComparisonResult.Overlap, ip :: _) => some (ip, v, hg)
      | _ => Option.none))

/-- Instrumented variant of `get_grid_intersections` that also records every
pair the oracle is asked about (the call trace). -/
def get_grid_intersectionsT (intersect : IntersectOracle)
    (v_grids h_grids : List Grid) : List (XYZ × Grid × Grid) × List (Grid × Grid) :=
  (get_grid_intersections intersect v_grids h_grids,
    v_grids.flatMap (fun v => h_grids.map (fun hg => (v, hg))))

/-- Embeds the grid-orientation split of `main` (lines 208-218): a grid is
horizontal when `abs(direction.X) > abs(direction.Y)`, vertical otherwise.
Returns `(vertical_grids, horizontal_grids)` in collection order. -/
def classify_grids (grids : List Grid) : List Grid × List Grid :=
  grids.foldl
    (fun vh g =>
      if |g.direction.x| > |g.direction.y| then (vh.1, vh.2 ++ [g])
      else (vh.1 ++ [g], vh.2))
    ([], [])

/-- One parameter slot on an element (name, current textual value, and the
host's read-only flag). -/
structure ParamSlot where
  pname : String
  value : String
  isReadOnly : Bool
deriving DecidableEq, Repr

/-- A document category (`Element.Category`): id and
`Category.AllowsBoundParameters`. -/
structure Category where
  cid : Nat
  allowsBoundParameters : Bool
deriving DecidableEq, Repr

/-- A document element: host id, category, location, and its parameter slots.
Which slots an element exposes is induced by the host from the binding map;
the model takes each element's slots as given. -/
structure Element where
  eid : Nat
  category : Option Category
  location : Location
  params : List ParamSlot
deriving DecidableEq, Repr

/-- Embeds `Element.LookupParameter(name)`: the first parameter slot with the
given name, if any. -/
def Element.lookupParameter (e : Element) (n : String) : Option ParamSlot :=
  e.params.find? (fun p => p.pname = n)

/-- Updates the first slot with the given name (the slot `LookupParameter`
returns) to the given value; used to model `Parameter.Set`. -/
def setFirstSlot : List ParamSlot → String → String → List ParamSlot
  | [], _, _ => []
  | p :: ps, n, v =>
      if p.pname = n then { p with value := v } :: ps
      else p :: setFirstSlot ps n v

/-- Embeds `param.Set(value)` for the parameter found by `LookupParameter n`. -/
def Element.setParameter (e : Element) (n v : String) : Element :=
  { e with params := setFirstSlot e.params n v }

/-- The data type of a bound parameter definition.  The script always creates
text parameters (`ParameterType.Text` / `SpecTypeId.String.Text`, lines
101-106); pre-existing definitions may have any type. -/
inductive PDataType where
  | text
  | other
deriving DecidableEq, Repr

/-- A parameter definition as it appears as a key of the binding map (and in a
shared parameter file group). -/
structure ParamDefinition where
  dname : String
  dtype : PDataType
deriving DecidableEq, Repr

/-- A binding: the set of category ids the parameter is bound to (the
`CategorySet` of an `InstanceBinding`). -/
structure Binding where
  cats : List Nat
deriving DecidableEq, Repr

/-- A shared-parameter-file group (name and definitions). -/
structure SPGroup where
  gname : String
  defs : List ParamDefinition
deriving DecidableEq, Repr

/-- A shared parameter file: its groups. -/
structure SPFile where
  groups : List SPGroup
deriving DecidableEq, Repr

/-- The host `Application` state the script touches: the shared parameter file
(`app.OpenSharedParameterFile`, created empty in the temp folder when absent,
lines 84-91). -/
structure App where
  sharedFile : Option SPFile
deriving DecidableEq, Repr

/-- The document: its elements and its parameter binding map
(`doc.ParameterBindings`, iterated in order). -/
structure Doc where
  elems : List Element
  bindings : List (ParamDefinition × Binding)
deriving DecidableEq, Repr

/-- Embeds `doc.GetElement(eid)`. -/
def Doc.getElement (d : Doc) (i : Nat) : Option Element :=
  d.elems.find? (fun e => e.eid = i)

/-- Writes back a (mutated) element into the document; the host mutates the
element in place, which for a well-formed document (unique ids) is the same as
replacing the element with that id. -/
def Doc.setElement (d : Doc) (e : Element) : Doc :=
  { d with elems := d.elems.map (fun x => if x.eid = e.eid then e else x) }

/-- A transaction record (`Transaction(doc, name)` that was started and
committed). -/
structure TxnRecord where
  tname : String
deriving DecidableEq, Repr

/-- Inserts a category id into a `CategorySet`-style id list
(`CategorySet.Insert` is a no-op when the category is already present). -/
def insertCatId (cs : List Nat) (c : Nat) : List Nat :=
  if c ∈ cs then cs else cs ++ [c]

/-- Builds the `CategorySet` of lines 43-46: every given category that allows
bound parameters, in order, without duplicates. -/
def buildCatSet (categories : List Category) : List Category :=
  categories.foldl
    (fun s c =>
      if c.allowsBoundParameters then (if c ∈ s then s else s ++ [c]) else s)
    []

/-- First entry of the binding map whose definition has the given name: the
entry at which the iterator loop of lines 49-78 stops. -/
def findBinding (bs : List (ParamDefinition × Binding)) (n : String) :
    Option (ParamDefinition × Binding) :=
  bs.find? (fun b => b.1.dname = n)

/-- Embeds `bindingMap.ReInsert(definition, binding)` as used on line 76:
replace the binding of the first definition with the given name. -/
def reInsertBinding (bs : List (ParamDefinition × Binding)) (n : String)
    (b : Binding) : List (ParamDefinition × Binding) :=
  match bs with
  | [] => []
  | p :: ps =>
      if p.1.dname = n then (p.1, b) :: ps
      else p :: reInsertBinding ps n b

/-- Embeds `app.OpenSharedParameterFile()` plus the fallback of lines 84-91:
when no shared parameter file is set, an empty temp file is created and
opened. -/
def openOrCreateSharedFile (app : App) : SPFile × App :=
  match app.sharedFile with
  | some f => (f, app)
  | Option.none => (⟨[]⟩, ⟨some ⟨[]⟩⟩)

/-- Finds or creates the "Grid Tools" shared-parameter group (lines 92-100).
Returns the group's definitions and the updated file. -/
def getOrCreateGroup (f : SPFile) (n : String) : SPGroup × SPFile :=
  match f.groups.find? (fun g => g.gname = n) with
  | some g => (g, f)
  | Option.none => (⟨n, []⟩, ⟨f.groups ++ [⟨n, []⟩]⟩)

/-- Adds a freshly created definition to the named group of the file
(`shared_group.Definitions.Create(options)`, line 120). -/
def addDefToGroup (f : SPFile) (n : String) (d : ParamDefinition) : SPFile :=
  ⟨f.groups.map (fun g => if g.gname = n then ⟨g.gname, g.defs ++ [d]⟩ else g)⟩

/-- Result of a call to `ensure_text_parameter`: the updated document and
application state, and the transactions the call started and committed. -/
structure EnsureResult where
  doc : Doc
  app : App
  txns : List TxnRecord
deriving Repr

/-- Embeds `ensure_text_parameter(doc, param_name, categories, group)`
(lines 29-125).

If a binding-map entry with the given definition *name* already exists (the
definition's data type is not inspected), the missing categories of the
category set are inserted into its category set inside a transaction of their
own — or nothing happens when none are missing.  Otherwise a definition is
fetched from (or created as a text parameter in) the "Grid Tools" group of the
shared parameter file and inserted with an instance binding to the category
set, inside its own transaction.

The exception path of lines 123-125 (rollback plus alert) is a host fault and
is not modelled: in this model the creation branch always succeeds, which is
the "returns normally" case the specification describes. -/
def ensure_text_parameter (app : App) (doc : Doc) (param_name : String)
    (categories : List Category) : EnsureResult :=
  let cat_set := buildCatSet categories
  match findBinding doc.bindings param_name with
  | some db =>
      let missing := cat_set.filter (fun c => decide (c.cid ∉ db.2.cats))
      if missing.length > 0 then
        let newCats := missing.foldl
          (fun cs c => if c.allowsBoundParameters then insertCatId cs c.cid else cs)
          db.2.cats
        ⟨{ doc with bindings := reInsertBinding doc.bindings param_name ⟨newCats⟩ },
          app, [⟨"Update binding for " ++ param_name⟩]⟩
      else ⟨doc, app, []⟩
  | Option.none =>
      let fa := openOrCreateSharedFile app
      let gf := getOrCreateGroup fa.1 "Grid Tools"
      let bnd : Binding := ⟨cat_set.map (fun c => c.cid)⟩
      match gf.1.defs.find? (fun d => d.dname = param_name) with
      | some existing_def =>
          ⟨{ doc with bindings := doc.bindings ++ [(existing_def, bnd)] },
            ⟨some gf.2⟩, [⟨"Add Project Parameter: " ++ param_name⟩]⟩
      | Option.none =>
          let new_def : ParamDefinition := ⟨param_name, PDataType.text⟩
          ⟨{ doc with bindings := doc.bindings ++ [(new_def, bnd)] },
            ⟨some (addDefToGroup gf.2 "Grid Tools" new_def)⟩,
            [⟨"Add Project Parameter: " ++ param_name⟩]⟩

/-- Embeds the `InitialSelectionFilter` class (lines 165-174). -/
structure InitialSelectionFilter where
  allowed_ids : List Nat

/-- `AllowElement(element)`: the element's id must be among the allowed ids. -/
def InitialSelectionFilter.AllowElement (f : InitialSelectionFilter)
    (e : Element) : Bool :=
  e.eid ∈ f.allowed_ids

/-- `AllowReference(ref, point)`: always rejected. -/
def InitialSelectionFilter.AllowReference (_f : InitialSelectionFilter)
    (_ref : Nat) (_point : XYZ) : Bool :=
  false

/-- Embeds `uidoc.Selection.PickObject(ObjectType.Element, filter, prompt)`
followed by `doc.GetElement(start_ref)` (lines 199-200).  The host returns
only elements the filter accepts; cancelling (or any pick failure) raises,
which the script turns into the "No starting element selected" exit — both
are modelled as `Option.none`.  `choice` is the element id the user picks. -/
def pickObject (d : Doc) (filt : InitialSelectionFilter)
    (choice : Option Nat) : Option Element :=
  match choice with
  | Option.none => Option.none
  | some c =>
      match d.getElement c with
      | Option.none => Option.none
      | some e => if filt.AllowElement e then some e else Option.none

/-- Collects the set of categories of the selected elements (lines 181-186);
the Python `set` is modelled as a first-occurrence-order list without
duplicates (the order is irrelevant downstream: only membership matters). -/
def selectedCategories (d : Doc) (sel : List Nat) : List Category :=
  sel.foldl
    (fun acc eid =>
      match d.getElement eid with
      | Option.none => acc
      | some e =>
          match e.category with
          | Option.none => acc
          | some c => if c ∈ acc then acc else acc ++ [c])
    []

/-- Inserts an element id into the `modified_elem_ids` set (line 227), modelled
as a first-insertion-order list without duplicates. -/
def insertId (ids : List Nat) (i : Nat) : List Nat :=
  if i ∈ ids then ids else ids ++ [i]

/-- State threaded through the assignment transaction: the document, the
`modified_elem_ids` set, and two instrumentation traces — the parameter
writes performed (element id, parameter name, value) and the number of
`DistanceTo` evaluations. -/
structure PassState where
  doc : Doc
  modified : List Nat
  writes : List (Nat × String × String)
  distCalls : Nat
deriving Repr

/-- One step of the nearest-intersection scan (lines 236-240): the running
minimum `min_dist` starts as `float("inf")`, modelled as `Option.none` (every
distance is below it); the update comparison is strict. -/
def closestStep (pt : XYZ) (acc : Option ℤ × Option (Grid × Grid))
    (t : XYZ × Grid × Grid) : Option ℤ × Option (Grid × Grid) :=
  let dist := pt.distSqTo t.1
  match acc.1 with
  | Option.none => (some dist, some t.2)
  | some m => if dist < m then (some dist, some t.2) else acc

/-- The nearest-intersection scan of lines 234-240: a single pass over the
intersection list keeping the strictly-improving minimum and its grid pair. -/
def closestLoop (pt : XYZ) (inters : List (XYZ × Grid × Grid)) :
    Option ℤ × Option (Grid × Grid) :=
  inters.foldl (closestStep pt) (Option.none, Option.none)

/-- Body of the "Grid Square" loop (lines 230-246) for one selected id.  A
selected id always resolves via `GetElement` in the host; an unresolvable id
is skipped.  `distCalls` grows by one `DistanceTo` per intersection tuple
whenever the element's location resolves. -/
def gridSquareBody (inters : List (XYZ × Grid × Grid)) (st : PassState)
    (eid : Nat) : PassState :=
  match st.doc.getElement eid with
  | Option.none => st
  | some elem =>
      match get_element_location elem.location with
      | Option.none => st
      | some pt =>
          let closest := (closestLoop pt inters).2
          let st1 : PassState := { st with distCalls := st.distCalls + inters.length }
          match closest with
          | Option.none => st1
          | some vh =>
              let grid_square := vh.1.name ++ "-" ++ vh.2.name
              match elem.lookupParameter "Grid Square" with
              | Option.none => st1
              | some prm =>
                  if prm.isReadOnly then st1
                  else
                    ⟨st1.doc.setElement (elem.setParameter "Grid Square" grid_square),
                      insertId st1.modified elem.eid,
                      st1.writes ++ [(elem.eid, "Grid Square", grid_square)],
                      st1.distCalls⟩

/-- The "Grid Square" assignment loop over the initial selection
(lines 230-246). -/
def gridSquarePass (inters : List (XYZ × Grid × Grid)) (sel : List Nat)
    (st : PassState) : PassState :=
  sel.foldl (gridSquareBody inters) st

/-- Embeds the `elements_with_distance` collection loop (lines 249-255): the
located selected elements, as (element id, squared distance from the start
point) in selection order. -/
def elements_with_distance (d : Doc) (sel : List Nat) (start_point : XYZ) :
    List (Nat × ℤ) :=
  sel.foldl
    (fun acc eid =>
      match d.getElement eid with
      | Option.none => acc
      | some elem =>
          match get_element_location elem.location with
          | Option.none => acc
          | some pt => acc ++ [(eid, pt.distSqTo start_point)])
    []

/-- Body of the numbering loop (lines 261-266) for one (element id, distance)
pair; the second component of the state is the counter `num`.  The Python
loop holds the element object picked up before sorting; with unique element
ids, refetching the element by id from the current document is the same
element. -/
def numberingBody (st : PassState × Nat) (p : Nat × ℤ) : PassState × Nat :=
  match st.1.doc.getElement p.1 with
  | Option.none => st
  | some elem =>
      match elem.lookupParameter "Number" with
      | Option.none => st
      | some prm =>
          if prm.isReadOnly then st
          else
            (⟨st.1.doc.setElement (elem.setParameter "Number" (toString st.2)),
                insertId st.1.modified elem.eid,
                st.1.writes ++ [(elem.eid, "Number", toString st.2)],
                st.1.distCalls⟩,
              st.2 + 1)

/-- The numbering pass (lines 248-266): collect the located selected elements
with their distances from the start point (one `DistanceTo` each), sort by
distance ascending — `list.sort` is a stable sort, as is `List.mergeSort` —
and assign `str(num)` for `num = 1, 2, ...` to each element whose "Number"
parameter exists and is writable. -/
def numberingPass (start_point : XYZ) (sel : List Nat) (st : PassState) :
    PassState :=
  let ewd := elements_with_distance st.doc sel start_point
  let sorted := ewd.mergeSort (fun a b => decide (a.2 ≤ b.2))
  let st1 : PassState := { st with distCalls := st.distCalls + ewd.length }
  (sorted.foldl numberingBody (st1, 1)).1

/-- The user-facing alerts the script can show (`forms.alert` calls). -/
inductive Alert where
  | pleaseSelect
  | selectStartPrompt
  | noStartingElement
  | noValidLocation
  | noIntersections
  | success
  | notAllNumbered
deriving DecidableEq, Repr

/-- The inputs of one run: initial document and application state, the ids the
user had selected (`uidoc.Selection.GetElementIds()`, distinct by
construction), the id the user picks as starting element (`Option.none` for a
cancelled pick), the grid elements the collector returns (line 209), and the
host geometry kernel's intersection oracle. -/
structure RunInput where
  doc0 : Doc
  app0 : App
  initial_sel_ids : List Nat
  pick : Option Nat
  grids : List Grid
  intersect : IntersectOracle

/-- The observable outcome of one run: final document and application state,
the transaction trace, the alerts shown in order, whether the script exited
at a guard (`exitscript=True`), the start point used for numbering (when the
run got that far), the `modified_elem_ids` set, and the instrumentation
traces of the assignment transaction. -/
structure RunResult where
  finalDoc : Doc
  finalApp : App
  txns : List TxnRecord
  alerts : List Alert
  earlyExit : Bool
  startPoint : Option XYZ
  modified : List Nat
  writes : List (Nat × String × String)
  distCalls : Nat

/-- Embeds the top-level script body (lines 176-273). -/
def main (inp : RunInput) : RunResult :=
  if inp.initial_sel_ids = [] then
    ⟨inp.doc0, inp.app0, [], [Alert.pleaseSelect], true, Option.none, [], [], 0⟩
  else
    let selection_filter : InitialSelectionFilter := ⟨inp.initial_sel_ids⟩
    let cats := selectedCategories inp.doc0 inp.initial_sel_ids
    let r1 := ensure_text_parameter inp.app0 inp.doc0 "Grid Square" cats
    let r2 := ensure_text_parameter r1.app r1.doc "Number" cats
    match pickObject r2.doc selection_filter inp.pick with
    | Option.none =>
        ⟨r2.doc, r2.app, r1.txns ++ r2.txns,
          [Alert.selectStartPrompt, Alert.noStartingElement], true,
          Option.none, [], [], 0⟩
    | some start_elem =>
        match get_element_location start_elem.location with
        | Option.none =>
            ⟨r2.doc, r2.app, r1.txns ++ r2.txns,
              [Alert.selectStartPrompt, Alert.noValidLocation], true,
              Option.none, [], [], 0⟩
        | some start_point =>
            let vh := classify_grids inp.grids
            let inters := get_grid_intersections inp.intersect vh.1 vh.2
            if inters = [] then
              ⟨r2.doc, r2.app, r1.txns ++ r2.txns,
                [Alert.selectStartPrompt, Alert.noIntersections], true,
                some start_point, [], [], 0⟩
            else
              let st1 := gridSquarePass inters inp.initial_sel_ids ⟨r2.doc, [], [], 0⟩
              let st2 := numberingPass start_point inp.initial_sel_ids st1
              let report :=
                if st2.modified.length = inp.initial_sel_ids.length then
                  Alert.success
                else Alert.notAllNumbered
              ⟨st2.doc, r2.app,
                r1.txns ++ r2.txns ++ [⟨"Assign Grid Square and Number"⟩],
                [Alert.selectStartPrompt, report], false, some start_point,
                st2.modified, st2.writes, st2.distCalls⟩

/-- Well-formed document: element ids are unique (guaranteed by the host). -/
def Doc.WF (d : Doc) : Prop :=
  (d.elems.map Element.eid).Nodup

/-- The shape of a parameter slot: everything except its value. -/
def ParamSlot.shape (p : ParamSlot) : String × Bool :=
  (p.pname, p.isReadOnly)

/-- The shape of an element: everything except its parameter values.  The
script's writes change parameter values only, so shapes are invariant across
the assignment transaction. -/
def Element.shape (e : Element) : Nat × Option Category × Location × List (String × Bool) :=
  (e.eid, e.category, e.location, e.params.map ParamSlot.shape)

/-- Document evolution produced by the assignment loops: every element is
rewritten in place (same position), its shape is preserved, and elements whose
id is outside `ids` are untouched. -/
def ShapeEvolves (d d' : Doc) (ids : List Nat) : Prop :=
  ∃ G : Element → Element,
    d'.elems = d.elems.map G ∧
    d'.bindings = d.bindings ∧
    (∀ e, (G e).eid = e.eid) ∧
    (∀ e ∈ d.elems, (G e).shape = e.shape) ∧
    (∀ e, e.eid ∉ ids → G e = e)

/-- Whether the element with the given id exists and has a resolvable
location. -/
def locatedAt (d : Doc) (i : Nat) : Bool :=
  match d.getElement i with
  | some e => (get_element_location e.location).isSome
  | Option.none => false

/-- Whether the element with the given id exists and carries a writable
parameter slot with the given name. -/
def writableParamAt (d : Doc) (i : Nat) (n : String) : Bool :=
  match d.getElement i with
  | some e =>
      match e.lookupParameter n with
      | some prm => !prm.isReadOnly
      | Option.none => false
  | Option.none => false

/-- The elements the numbering loop writes to, in write order: the located
selected elements sorted by ascending distance (stably, as Python's
`list.sort` and `List.mergeSort` both are), restricted to those with a
writable "Number" parameter. -/
def numberTargets (d : Doc) (sel : List Nat) (start_point : XYZ) :
    List (Nat × ℤ) :=
  ((elements_with_distance d sel start_point).mergeSort
      (fun a b => decide (a.2 ≤ b.2))).filter
    (fun p => writableParamAt d p.1 "Number")

/-- The "Number" write trace produced for a target list, numbering from `n`. -/
def numberedWrites (n : Nat) : List (Nat × ℤ) → List (Nat × String × String)
  | [] => []
  | p :: ps => (p.1, "Number", toString n) :: numberedWrites (n + 1) ps

/-- Specification-side reading of the nearest-intersection rule of claim C1:
index `k` holds the pair whose intersection point has minimum distance to
`pt`, with ties resolved to the first index in iteration order.  Distances
are compared via `distSqTo`; the squared distance is a strictly monotone
image of the Euclidean distance, so minimality and strictness agree with the
claim's Euclidean reading. -/
def IsFirstNearest (pt : XYZ) (inters : List (XYZ × Grid × Grid))
    (k : Fin inters.length) : Prop :=
  (∀ j : Fin inters.length,
      pt.distSqTo (inters.get k).1 ≤ pt.distSqTo (inters.get j).1) ∧
  (∀ j : Fin inters.length, j.val < k.val →
      pt.distSqTo (inters.get k).1 < pt.distSqTo (inters.get j).1)

/-- The invariant tying `modified_elem_ids` to the write trace: it is a
duplicate-free list holding exactly the ids that received at least one
parameter write. -/
def ModInv (st : PassState) : Prop :=
  st.modified.Nodup ∧
  ∀ i, i ∈ st.modified ↔ ∃ pn v, (i, pn, v) ∈ st.writes

/-- The document after the two `ensure_text_parameter` calls of lines 192-193
(the state the pick and the assignment transaction operate on). -/
def docAfterEnsure (inp : RunInput) : Doc :=
  (ensure_text_parameter
      (ensure_text_parameter inp.app0 inp.doc0 "Grid Square"
        (selectedCategories inp.doc0 inp.initial_sel_ids)).app
      (ensure_text_parameter inp.app0 inp.doc0 "Grid Square"
        (selectedCategories inp.doc0 inp.initial_sel_ids)).doc
      "Number"
      (selectedCategories inp.doc0 inp.initial_sel_ids)).doc

/-- The intersection list a run computes (lines 208-220). -/
def intersOf (inp : RunInput) : List (XYZ × Grid × Grid) :=
  get_grid_intersections inp.intersect (classify_grids inp.grids).1
    (classify_grids inp.grids).2

/-- The application state after the two `ensure_text_parameter` calls. -/
def appAfterEnsure (inp : RunInput) : App :=
  (ensure_text_parameter
      (ensure_text_parameter inp.app0 inp.doc0 "Grid Square"
        (selectedCategories inp.doc0 inp.initial_sel_ids)).app
      (ensure_text_parameter inp.app0 inp.doc0 "Grid Square"
        (selectedCategories inp.doc0 inp.initial_sel_ids)).doc
      "Number"
      (selectedCategories inp.doc0 inp.initial_sel_ids)).app

/-- The transactions the two `ensure_text_parameter` calls commit. -/
def ensureTxns (inp : RunInput) : List TxnRecord :=
  (ensure_text_parameter inp.app0 inp.doc0 "Grid Square"
      (selectedCategories inp.doc0 inp.initial_sel_ids)).txns
    ++ (ensure_text_parameter
        (ensure_text_parameter inp.app0 inp.doc0 "Grid Square"
          (selectedCategories inp.doc0 inp.initial_sel_ids)).app
        (ensure_text_parameter inp.app0 inp.doc0 "Grid Square"
          (selectedCategories inp.doc0 inp.initial_sel_ids)).doc
        "Number"
        (selectedCategories inp.doc0 inp.initial_sel_ids)).txns

/- Concrete fixtures used by counterexamples and witnesses. -/

/-- A category that allows bound parameters. -/
def cat0 : Category := ⟨0, true⟩

/-- A vertical grid named "A" (direction along Y). -/
def gridA : Grid := ⟨100, "A", ⟨0, 1, 0⟩⟩

/-- A horizontal grid named "1" (direction along X). -/
def grid1 : Grid := ⟨101, "1", ⟨1, 0, 0⟩⟩

/-- A geometry oracle whose every answer is an overlap at the origin. -/
def originOracle : IntersectOracle :=
  fun _ _ => (SetComparisonResult.Overlap, [⟨0, 0, 0⟩])

/-- An element with both parameters writable and a point location. -/
def elemBoth (i : Nat) (p : XYZ) : Element :=
  ⟨i, some cat0, Location.point p,
    [⟨"Grid Square", "", false⟩, ⟨"Number", "", false⟩]⟩

/-- A two-element document with no bindings. -/
def docTwo : Doc :=
  ⟨[elemBoth 1 ⟨1, 1, 0⟩, elemBoth 2 ⟨2, 0, 0⟩], []⟩

/-- A complete run on `docTwo` with a fresh application state: both
parameters get created, the pick succeeds, and both elements are written. -/
def inpFull : RunInput :=
  ⟨docTwo, ⟨Option.none⟩, [1, 2], some 1, [gridA, grid1], originOracle⟩

/-- An element with no usable location. -/
def elemNoLoc : Element :=
  ⟨1, some cat0, Location.noLoc,
    [⟨"Grid Square", "", false⟩, ⟨"Number", "", false⟩]⟩

/-- An element whose "Number" parameter is read-only. -/
def elemRONum : Element :=
  ⟨3, some cat0, Location.point ⟨5, 0, 0⟩, [⟨"Number", "", true⟩]⟩

/-- Document for the C2 counterexample: element 1 has no location, element 3
has a read-only "Number" parameter; only element 2 can be numbered. -/
def docCE2 : Doc :=
  ⟨[elemNoLoc, elemBoth 2 ⟨2, 0, 0⟩, elemRONum], []⟩

/-- Document for the C5 counterexample: a non-text parameter named
"Grid Square" is already bound. -/
def docCE5 : Doc :=
  ⟨[], [(⟨"Grid Square", PDataType.other⟩, ⟨[]⟩)]⟩

/-- An element carrying only the "Grid Square" parameter. -/
def elemGSOnly : Element :=
  ⟨1, some cat0, Location.point ⟨1, 1, 0⟩, [⟨"Grid Square", "", false⟩]⟩

/-- Run for the C9 demonstration: the only selected element receives a
"Grid Square" write but no "Number" write, yet the success report shows. -/
def inpGSOnly : RunInput :=
  ⟨⟨[elemGSOnly], []⟩, ⟨Option.none⟩, [1], some 1, [gridA, grid1], originOracle⟩

/-- Resolves one selected id to an (id, squared distance) entry the
`elements_with_distance` loop would append, if the element is located. -/
def ewdEntry (d : Doc) (start_point : XYZ) (i : Nat) : Option (Nat × ℤ) :=
  match d.getElement i with
  | some e => (get_element_location e.location).map
      (fun pt => (i, pt.distSqTo start_point))
  | Option.none => Option.none

/- Theorems. -/

theorem setFirstSlot_shape (ps : List ParamSlot) (n v : String) :
    (setFirstSlot ps n v).map ParamSlot.shape = ps.map ParamSlot.shape := by
  induction ps with
  | nil => rfl
  | cons p ps ih =>
      by_cases h : p.pname = n
      · simp [setFirstSlot, h, ParamSlot.shape]
      · simp [setFirstSlot, h, ih]

theorem setParameter_eid (e : Element) (n v : String) :
    (e.setParameter n v).eid = e.eid := rfl

theorem setParameter_shape (e : Element) (n v : String) :
    (e.setParameter n v).shape = e.shape := by
  simp [Element.setParameter, Element.shape, setFirstSlot_shape]

theorem lookup_shape (ps : List ParamSlot) (n : String) :
    (ps.find? (fun p => p.pname = n)).map ParamSlot.shape
      = (ps.map ParamSlot.shape).find? (fun s => s.1 = n) := by
  rw [List.find?_map]
  rfl

theorem lookupParameter_shape_congr {e₁ e₂ : Element}
    (h : e₁.params.map ParamSlot.shape = e₂.params.map ParamSlot.shape)
    (n : String) :
    (e₁.lookupParameter n).map ParamSlot.shape
      = (e₂.lookupParameter n).map ParamSlot.shape := by
  unfold Element.lookupParameter
  rw [lookup_shape, lookup_shape, h]

theorem find?_setFirstSlot_self {n v : String} {s : ParamSlot} :
    ∀ {ps : List ParamSlot},
      ps.find? (fun p => p.pname = n) = some s →
      (setFirstSlot ps n v).find? (fun p => p.pname = n)
        = some { s with value := v }
  | [], h => by simp at h
  | p :: ps, h => by
      by_cases hp : p.pname = n
      · rw [List.find?_cons_of_pos _ (by simp [hp])] at h
        cases h
        simp only [setFirstSlot, if_pos hp]
        exact List.find?_cons_of_pos _ (by simp [hp])
      · rw [List.find?_cons_of_neg _ (by simp [hp])] at h
        simp only [setFirstSlot, if_neg hp]
        rw [List.find?_cons_of_neg _ (by simp [hp])]
        exact find?_setFirstSlot_self h

theorem lookupParameter_setParameter_self {e : Element} {n : String}
    {s : ParamSlot} (h : e.lookupParameter n = some s) (v : String) :
    (e.setParameter n v).lookupParameter n = some { s with value := v } := by
  unfold Element.lookupParameter at h ⊢
  unfold Element.setParameter
  exact find?_setFirstSlot_self h

theorem getElement_some_eid {d : Doc} {i : Nat} {e : Element}
    (h : d.getElement i = some e) : e.eid = i := by
  have := List.find?_some h
  exact of_decide_eq_true this

theorem getElement_some_mem {d : Doc} {i : Nat} {e : Element}
    (h : d.getElement i = some e) : e ∈ d.elems :=
  List.mem_of_find?_eq_some h

theorem getElement_map_eid (l : List Element)
    (bs : List (ParamDefinition × Binding)) (G : Element → Element)
    (hG : ∀ e, (G e).eid = e.eid) (i : Nat) :
    Doc.getElement ⟨l.map G, bs⟩ i = (Doc.getElement ⟨l, bs⟩ i).map G := by
  unfold Doc.getElement
  simp only [List.find?_map]
  have hp : (fun e => decide ((G e).eid = i)) = (fun e => decide (e.eid = i)) := by
    funext e
    rw [hG]
  rw [show ((fun e : Element => decide (e.eid = i)) ∘ G)
        = (fun e => decide ((G e).eid = i)) from rfl, hp]

theorem shapeEvolves_refl (d : Doc) (ids : List Nat) : ShapeEvolves d d ids := by
  refine ⟨id, by simp, rfl, fun e => rfl, fun e _ => rfl, fun e _ => rfl⟩

theorem shapeEvolves_trans {d d' d'' : Doc} {ids : List Nat}
    (h₁ : ShapeEvolves d d' ids) (h₂ : ShapeEvolves d' d'' ids) :
    ShapeEvolves d d'' ids := by
  obtain ⟨G₁, he₁, hb₁, hi₁, hs₁, ho₁⟩ := h₁
  obtain ⟨G₂, he₂, hb₂, hi₂, hs₂, ho₂⟩ := h₂
  refine ⟨G₂ ∘ G₁, ?_, hb₂.trans hb₁, fun e => ?_, fun e he => ?_, fun e he => ?_⟩
  · rw [he₂, he₁, List.map_map]
  · simp [hi₂, hi₁]
  · have hmem : G₁ e ∈ d'.elems := by
      rw [he₁]
      exact List.mem_map_of_mem G₁ he
    simp [hs₂ _ hmem, hs₁ _ he]
  · show G₂ (G₁ e) = e
    rw [ho₁ _ he, ho₂ _ he]

theorem shapeEvolves_mono {d d' : Doc} {ids ids' : List Nat}
    (sub : ∀ i, i ∈ ids → i ∈ ids') (h : ShapeEvolves d d' ids) :
    ShapeEvolves d d' ids' := by
  obtain ⟨G, he, hb, hi, hs, ho⟩ := h
  exact ⟨G, he, hb, hi, hs, fun e hn => ho e (fun hm => hn (sub _ hm))⟩

theorem ShapeEvolves.getElement_rel {d d' : Doc} {ids : List Nat}
    (h : ShapeEvolves d d' ids) (i : Nat) :
    ∃ G : Element → Element,
      d'.getElement i = (d.getElement i).map G ∧
      (∀ e, (G e).eid = e.eid) ∧
      (∀ e ∈ d.elems, (G e).shape = e.shape) ∧
      (∀ e, e.eid ∉ ids → G e = e) := by
  obtain ⟨G, he, hb, hi, hs, ho⟩ := h
  refine ⟨G, ?_, hi, hs, ho⟩
  have : d' = ⟨d.elems.map G, d'.bindings⟩ := by
    cases d'
    simp only at he ⊢
    rw [he]
  rw [this, getElement_map_eid d.elems d'.bindings G hi i]
  rfl

theorem ShapeEvolves.frame {d d' : Doc} {ids : List Nat}
    (h : ShapeEvolves d d' ids) {i : Nat} (hi : i ∉ ids) :
    d'.getElement i = d.getElement i := by
  obtain ⟨G, hrel, hG, hs, ho⟩ := h.getElement_rel i
  rw [hrel]
  cases hf : d.getElement i with
  | none => rfl
  | some e =>
      have he : e.eid = i := getElement_some_eid hf
      simp [ho e (by rw [he]; exact hi)]

theorem ShapeEvolves.locatedAt_eq {d d' : Doc} {ids : List Nat}
    (h : ShapeEvolves d d' ids) (i : Nat) :
    locatedAt d' i = locatedAt d i := by
  obtain ⟨G, hrel, hG, hs, ho⟩ := h.getElement_rel i
  unfold locatedAt
  rw [hrel]
  cases hf : d.getElement i with
  | none => rfl
  | some e =>
      have hsh := hs e (getElement_some_mem hf)
      have : (G e).location = e.location := congrArg (fun t => t.2.2.1) hsh
      simp [this]

theorem ShapeEvolves.writableAt_eq {d d' : Doc} {ids : List Nat}
    (h : ShapeEvolves d d' ids) (i : Nat) (n : String) :
    writableParamAt d' i n = writableParamAt d i n := by
  obtain ⟨G, hrel, hG, hs, ho⟩ := h.getElement_rel i
  unfold writableParamAt
  rw [hrel]
  cases hf : d.getElement i with
  | none => rfl
  | some e =>
      have hsh := hs e (getElement_some_mem hf)
      have hps : (G e).params.map ParamSlot.shape = e.params.map ParamSlot.shape :=
        congrArg (fun t => t.2.2.2) hsh
      have hl := lookupParameter_shape_congr hps n
      cases h₁ : (G e).lookupParameter n with
      | none =>
          rw [h₁] at hl
          cases h₂ : e.lookupParameter n with
          | none => simp [h₁, h₂]
          | some s => rw [h₂] at hl; simp at hl
      | some s' =>
          rw [h₁] at hl
          cases h₂ : e.lookupParameter n with
          | none => rw [h₂] at hl; simp at hl
          | some s =>
              rw [h₂] at hl
              simp at hl
              have hro : s'.isReadOnly = s.isReadOnly := congrArg Prod.snd hl
              simp [h₁, h₂, hro]

theorem ShapeEvolves.WF_of {d d' : Doc} {ids : List Nat}
    (h : ShapeEvolves d d' ids) (hWF : d.WF) : d'.WF := by
  obtain ⟨G, he, hb, hi, hs, ho⟩ := h
  unfold Doc.WF at hWF ⊢
  rw [he, List.map_map]
  have : (Element.eid ∘ G) = Element.eid := by
    funext e
    exact hi e
  rw [this]
  exact hWF

theorem setElement_shapeEvolves {d : Doc} {i : Nat} {e : Element}
    (hWF : d.WF) (hget : d.getElement i = some e) {e' : Element}
    (heid : e'.eid = e.eid) (hsh : e'.shape = e.shape)
    (ids : List Nat) (hin : i ∈ ids) :
    ShapeEvolves d (d.setElement e') ids := by
  have hei : e.eid = i := getElement_some_eid hget
  have hmem : e ∈ d.elems := getElement_some_mem hget
  refine ⟨fun x => if x.eid = e'.eid then e' else x, rfl, rfl,
    fun x => ?_, fun x hx => ?_, fun x hx => ?_⟩
  · by_cases hc : x.eid = e'.eid
    · simp [hc, heid]
    · simp [hc]
  · by_cases hc : x.eid = e'.eid
    · have hxe : x = e :=
        List.inj_on_of_nodup_map hWF hx hmem (by rw [hc, heid])
      show (if x.eid = e'.eid then e' else x).shape = x.shape
      rw [if_pos hc, hsh, hxe]
    · simp [hc]
  · have hne : x.eid ≠ e'.eid := by
      rw [heid, hei]
      intro hcc
      rw [hcc] at hx
      exact hx hin
    simp [hne]

theorem getElement_setElement_self {d : Doc} {i : Nat} {e : Element}
    (hget : d.getElement i = some e) {e' : Element} (heid : e'.eid = e.eid) :
    (d.setElement e').getElement i = some e' := by
  have hG : ∀ x : Element,
      ((fun x => if x.eid = e'.eid then e' else x) x).eid = x.eid := by
    intro x
    by_cases hc : x.eid = e'.eid
    · simp [hc, heid, hc.symm]
    · simp [hc]
  show Doc.getElement ⟨d.elems.map _, d.bindings⟩ i = some e'
  rw [getElement_map_eid d.elems d.bindings _ hG i]
  rw [show (⟨d.elems, d.bindings⟩ : Doc) = d from rfl, hget]
  simp [heid]

theorem gridSquareBody_evolves (inters : List (XYZ × Grid × Grid))
    (st : PassState) (i : Nat) (hWF : st.doc.WF)
    (ids : List Nat) (hin : i ∈ ids) :
    ShapeEvolves st.doc (gridSquareBody inters st i).doc ids := by
  unfold gridSquareBody
  split
  · exact shapeEvolves_refl _ _
  next elem hget =>
    split
    · exact shapeEvolves_refl _ _
    next pt hloc =>
      dsimp only
      split
      · exact shapeEvolves_refl _ _
      next vh hcl =>
        split
        · exact shapeEvolves_refl _ _
        next prm hlk =>
          split
          · exact shapeEvolves_refl _ _
          · exact setElement_shapeEvolves hWF hget
              (setParameter_eid elem "Grid Square" _)
              (setParameter_shape elem "Grid Square" _) ids hin

theorem gridSquarePass_evolves (inters : List (XYZ × Grid × Grid)) :
    ∀ (sel : List Nat) (st : PassState), st.doc.WF →
      ShapeEvolves st.doc (gridSquarePass inters sel st).doc sel
  | [], st, _ => shapeEvolves_refl _ _
  | i :: rest, st, hWF => by
      show ShapeEvolves st.doc
        (gridSquarePass inters rest (gridSquareBody inters st i)).doc (i :: rest)
      have h1 := gridSquareBody_evolves inters st i hWF (i :: rest)
        (List.mem_cons_self i rest)
      have h2 := gridSquarePass_evolves inters rest (gridSquareBody inters st i)
        (h1.WF_of hWF)
      exact shapeEvolves_trans h1
        (shapeEvolves_mono (fun j hj => List.mem_cons_of_mem i hj) h2)

theorem numberingBody_evolves (stn : PassState × Nat) (p : Nat × ℤ)
    (hWF : stn.1.doc.WF) (ids : List Nat) (hin : p.1 ∈ ids) :
    ShapeEvolves stn.1.doc (numberingBody stn p).1.doc ids := by
  unfold numberingBody
  split
  · exact shapeEvolves_refl _ _
  next elem hget =>
    split
    · exact shapeEvolves_refl _ _
    next prm hlk =>
      split
      · exact shapeEvolves_refl _ _
      · exact setElement_shapeEvolves hWF hget
          (setParameter_eid elem "Number" _)
          (setParameter_shape elem "Number" _) ids hin

theorem numberingFold_evolves :
    ∀ (l : List (Nat × ℤ)) (stn : PassState × Nat) (ids : List Nat),
      stn.1.doc.WF → (∀ p ∈ l, p.1 ∈ ids) →
      ShapeEvolves stn.1.doc ((l.foldl numberingBody stn).1).doc ids
  | [], stn, ids, _, _ => shapeEvolves_refl _ _
  | p :: rest, stn, ids, hWF, hids => by
      show ShapeEvolves stn.1.doc
        ((rest.foldl numberingBody (numberingBody stn p)).1).doc ids
      have h1 := numberingBody_evolves stn p hWF ids
        (hids p (List.mem_cons_self p rest))
      have h2 := numberingFold_evolves rest (numberingBody stn p) ids
        (h1.WF_of hWF) (fun q hq => hids q (List.mem_cons_of_mem p hq))
      exact shapeEvolves_trans h1 h2

theorem ewd_aux (d : Doc) (sp : XYZ) :
    ∀ (sel : List Nat) (acc : List (Nat × ℤ)),
      List.foldl
        (fun acc eid =>
          match d.getElement eid with
          | Option.none => acc
          | some elem =>
              match get_element_location elem.location with
              | Option.none => acc
              | some pt => acc ++ [(eid, pt.distSqTo sp)])
        acc sel
      = acc ++ sel.filterMap (ewdEntry d sp)
  | [], acc => by simp
  | i :: rest, acc => by
      simp only [List.foldl_cons, List.filterMap_cons]
      cases hget : d.getElement i with
      | none =>
          rw [show ewdEntry d sp i = Option.none by simp [ewdEntry, hget]]
          simp only [hget]
          exact ewd_aux d sp rest acc
      | some elem =>
          cases hloc : get_element_location elem.location with
          | none =>
              rw [show ewdEntry d sp i = Option.none by simp [ewdEntry, hget, hloc]]
              simp only [hget, hloc]
              exact ewd_aux d sp rest acc
          | some pt =>
              rw [show ewdEntry d sp i = some (i, pt.distSqTo sp) by
                simp [ewdEntry, hget, hloc]]
              simp only [hget, hloc]
              rw [ewd_aux d sp rest (acc ++ [(i, pt.distSqTo sp)])]
              simp

theorem elements_with_distance_eq (d : Doc) (sel : List Nat) (sp : XYZ) :
    elements_with_distance d sel sp = sel.filterMap (ewdEntry d sp) := by
  unfold elements_with_distance
  rw [ewd_aux d sp sel []]
  simp

theorem ewdEntry_some_fst {d : Doc} {sp : XYZ} {i : Nat} {q : Nat × ℤ}
    (h : ewdEntry d sp i = some q) : q.1 = i := by
  unfold ewdEntry at h
  cases hget : d.getElement i with
  | none => rw [hget] at h; simp at h
  | some e =>
      rw [hget] at h
      dsimp only at h
      cases hloc : get_element_location e.location with
      | none => rw [hloc] at h; simp at h
      | some pt =>
          rw [hloc] at h
          cases q with
          | mk q1 q2 =>
              simp at h
              exact h.1.symm

theorem mem_ewd_id {d : Doc} {sp : XYZ} {sel : List Nat} {q : Nat × ℤ}
    (h : q ∈ elements_with_distance d sel sp) : q.1 ∈ sel := by
  rw [elements_with_distance_eq] at h
  obtain ⟨i, hi, he⟩ := List.mem_filterMap.mp h
  rw [ewdEntry_some_fst he]
  exact hi

theorem ewdEntry_isSome_iff (d : Doc) (sp : XYZ) (i : Nat) :
    (ewdEntry d sp i).isSome = locatedAt d i := by
  unfold ewdEntry locatedAt
  cases hget : d.getElement i with
  | none => rfl
  | some e =>
      cases hloc : get_element_location e.location with
      | none => simp [hloc]
      | some pt => simp [hloc]

theorem ewd_length (d : Doc) (sel : List Nat) (sp : XYZ) :
    (elements_with_distance d sel sp).length
      = (sel.filter (fun i => locatedAt d i)).length := by
  rw [elements_with_distance_eq]
  induction sel with
  | nil => rfl
  | cons i rest ih =>
      simp only [List.filterMap_cons, List.filter_cons]
      cases he : ewdEntry d sp i with
      | none =>
          have : locatedAt d i = false := by
            rw [← ewdEntry_isSome_iff, he]
            rfl
          simp [this, ih]
      | some q =>
          have : locatedAt d i = true := by
            rw [← ewdEntry_isSome_iff, he]
            rfl
          simp [this, ih]

theorem numberingPass_evolves (sp : XYZ) (sel : List Nat) (st : PassState)
    (hWF : st.doc.WF) :
    ShapeEvolves st.doc (numberingPass sp sel st).doc sel := by
  unfold numberingPass
  have hids : ∀ p ∈ (elements_with_distance st.doc sel sp).mergeSort
      (fun a b => decide (a.2 ≤ b.2)), p.1 ∈ sel := by
    intro p hp
    exact mem_ewd_id (List.mem_mergeSort.mp hp)
  exact numberingFold_evolves _ ({ st with distCalls := _ }, 1) sel hWF hids

theorem closestLoop_concat (pt : XYZ) (l : List (XYZ × Grid × Grid))
    (a : XYZ × Grid × Grid) :
    closestLoop pt (l ++ [a]) = closestStep pt (closestLoop pt l) a := by
  unfold closestLoop
  rw [List.foldl_append]
  rfl

theorem closestLoop_spec (pt : XYZ) (l : List (XYZ × Grid × Grid))
    (hne : l ≠ []) :
    ∃ k : Fin l.length,
      closestLoop pt l = (some (pt.distSqTo (l.get k).1), some (l.get k).2) ∧
      IsFirstNearest pt l k := by
  induction l using List.reverseRecOn with
  | nil => exact absurd rfl hne
  | append_singleton l a ih =>
      rw [closestLoop_concat]
      have hgetA : ∀ hm : l.length < (l ++ [a]).length,
          (l ++ [a]).get ⟨l.length, hm⟩ = a := by
        intro hm
        simp [List.get_eq_getElem]
      have hgetL : ∀ (m : Nat) (hm : m < l.length)
          (hm' : m < (l ++ [a]).length),
          (l ++ [a]).get ⟨m, hm'⟩ = l.get ⟨m, hm⟩ := by
        intro m hm hm'
        simp [List.get_eq_getElem, List.getElem_append_left hm]
      by_cases hl : l = []
      · subst hl
        refine ⟨⟨0, by simp⟩, by simp [closestLoop, closestStep], ?_, ?_⟩
        · intro j
          have h1 := j.isLt
          simp only [List.nil_append, List.length_singleton, Nat.lt_one_iff] at h1
          have he : j = ⟨0, by simp⟩ := Fin.ext (by simp [h1])
          rw [he]
        · intro j hj
          simp at hj
      · obtain ⟨k, hck, hmin, hfirst⟩ := ih hl
        rw [hck]
        by_cases hcmp : pt.distSqTo a.1 < pt.distSqTo (l.get k).1
        · refine ⟨⟨l.length, by simp⟩, ?_, ?_, ?_⟩
          · rw [hgetA]
            simp only [closestStep]
            rw [if_pos hcmp]
          · intro j
            rw [hgetA]
            rcases Nat.lt_or_ge j.val l.length with hjl | hjl
            · rw [hgetL j.val hjl j.isLt]
              exact le_of_lt (lt_of_lt_of_le hcmp (hmin ⟨j.val, hjl⟩))
            · have : j.val = l.length := by
                have := j.isLt
                simp at this
                omega
              rw [show j = ⟨l.length, by simp⟩ from Fin.ext this, hgetA]
          · intro j hjk
            have hjl : j.val < l.length := by
              simpa using hjk
            rw [hgetA, hgetL j.val hjl j.isLt]
            exact lt_of_lt_of_le hcmp (hmin ⟨j.val, hjl⟩)
        · have hkl : k.val < l.length := k.isLt
          refine ⟨⟨k.val, by simp [Nat.lt_succ_of_lt hkl]⟩, ?_, ?_, ?_⟩
          · rw [hgetL k.val hkl]
            simp only [closestStep]
            rw [if_neg hcmp]
          · intro j
            rw [hgetL k.val hkl]
            rw [show (⟨k.val, hkl⟩ : Fin l.length) = k from Fin.ext rfl]
            rcases Nat.lt_or_ge j.val l.length with hjl | hjl
            · rw [hgetL j.val hjl j.isLt]
              exact hmin ⟨j.val, hjl⟩
            · have hje : j.val = l.length := by
                have := j.isLt
                simp at this
                omega
              rw [show j = ⟨l.length, by simp⟩ from Fin.ext hje, hgetA]
              exact le_of_not_lt hcmp
          · intro j hjk
            have hjl : j.val < l.length := lt_trans hjk hkl
            rw [hgetL k.val hkl, hgetL j.val hjl j.isLt]
            rw [show (⟨k.val, hkl⟩ : Fin l.length) = k from Fin.ext rfl]
            exact hfirst ⟨j.val, hjl⟩ hjk

theorem gridSquarePass_split (inters : List (XYZ × Grid × Grid))
    (pre post : List Nat) (i : Nat) (st : PassState) :
    gridSquarePass inters (pre ++ i :: post) st
      = gridSquarePass inters post
          (gridSquareBody inters (gridSquarePass inters pre st) i) := by
  unfold gridSquarePass
  rw [List.foldl_append]
  rfl

theorem nodup_split_left {pre post : List Nat} {i : Nat}
    (h : (pre ++ i :: post).Nodup) : i ∉ pre := by
  rw [List.nodup_append] at h
  intro hmem
  exact h.2.2 hmem (List.mem_cons_self i post)

theorem nodup_split_right {pre post : List Nat} {i : Nat}
    (h : (pre ++ i :: post).Nodup) : i ∉ post := by
  rw [List.nodup_append] at h
  exact (List.nodup_cons.mp h.2.1).1

/-- C1: for every selected element whose location resolves to a point, given a
non-empty intersection list, the Grid Square loop sets the element's
"Grid Square" parameter (present and writable by hypothesis) to
`V.Name ++ "-" ++ H.Name` for the vertical/horizontal pair `(V, H)` whose
intersection point is at minimum distance from the element's location, ties
resolved to the first pair in iteration order (the comparison on line 238 is
strict).  Distance minimality is stated via the squared Euclidean distance,
which orders points exactly as the Euclidean distance does. -/
theorem claim_C1 (inters : List (XYZ × Grid × Grid)) (sel : List Nat)
    (st : PassState) (i : Nat) (e : Element) (slot : ParamSlot) (pt : XYZ)
    (hWF : st.doc.WF) (hsel : sel.Nodup) (hmem : i ∈ sel)
    (hget : st.doc.getElement i = some e)
    (hloc : get_element_location e.location = some pt)
    (hlook : e.lookupParameter "Grid Square" = some slot)
    (hro : slot.isReadOnly = false)
    (hne : inters ≠ []) :
    ∃ k : Fin inters.length, IsFirstNearest pt inters k ∧
      ∃ e', (gridSquarePass inters sel st).doc.getElement i = some e' ∧
        e'.lookupParameter "Grid Square" =
          some { slot with
                 value := (inters.get k).2.1.name ++ "-"
                   ++ (inters.get k).2.2.name } := by
  obtain ⟨pre, post, hsplit⟩ := List.append_of_mem hmem
  subst hsplit
  have hipre : i ∉ pre := nodup_split_left hsel
  have hipost : i ∉ post := nodup_split_right hsel
  have hev1 := gridSquarePass_evolves inters pre st hWF
  have hWF1 : (gridSquarePass inters pre st).doc.WF := hev1.WF_of hWF
  have hget1 : (gridSquarePass inters pre st).doc.getElement i = some e := by
    rw [hev1.frame hipre]
    exact hget
  rw [gridSquarePass_split]
  obtain ⟨k, hck, hnear⟩ := closestLoop_spec pt inters hne
  refine ⟨k, hnear, ?_⟩
  have hck2 : (closestLoop pt inters).2 = some (inters.get k).2 := by
    rw [hck]
  have hbodydoc : (gridSquareBody inters (gridSquarePass inters pre st) i).doc
      = (gridSquarePass inters pre st).doc.setElement
          (e.setParameter "Grid Square"
            ((inters.get k).2.1.name ++ "-" ++ (inters.get k).2.2.name)) := by
    simp only [gridSquareBody, hget1, hloc, hck2, hlook, hro]
    simp [hro]
  have hgetbody : (gridSquareBody inters (gridSquarePass inters pre st) i).doc.getElement i
      = some (e.setParameter "Grid Square"
          ((inters.get k).2.1.name ++ "-" ++ (inters.get k).2.2.name)) := by
    rw [hbodydoc]
    exact getElement_setElement_self hget1 (setParameter_eid e _ _)
  have hWFb : (gridSquareBody inters (gridSquarePass inters pre st) i).doc.WF :=
    (gridSquareBody_evolves inters (gridSquarePass inters pre st) i hWF1
      [i] (List.mem_singleton.mpr rfl)).WF_of hWF1
  have hev2 := gridSquarePass_evolves inters post
    (gridSquareBody inters (gridSquarePass inters pre st) i) hWFb
  refine ⟨e.setParameter "Grid Square"
    ((inters.get k).2.1.name ++ "-" ++ (inters.get k).2.2.name), ?_, ?_⟩
  · rw [hev2.frame hipost]
    exact hgetbody
  · exact lookupParameter_setParameter_self hlook _

/-- Witness for C1 at a concrete input: a single intersection of grids "A"
and "1" at the origin, one selected element at (1,1,0) with a writable
"Grid Square" parameter. -/
theorem claim_C1_witness :
    ∃ k : Fin ([((⟨0, 0, 0⟩ : XYZ), gridA, grid1)].length),
      IsFirstNearest ⟨1, 1, 0⟩ [(⟨0, 0, 0⟩, gridA, grid1)] k ∧
      ∃ e', (gridSquarePass [(⟨0, 0, 0⟩, gridA, grid1)] [1]
          ⟨docTwo, [], [], 0⟩).doc.getElement 1 = some e' ∧
        e'.lookupParameter "Grid Square" =
          some { (⟨"Grid Square", "", false⟩ : ParamSlot) with
                 value := ([((⟨0, 0, 0⟩ : XYZ), gridA, grid1)].get k).2.1.name
                   ++ "-" ++ ([((⟨0, 0, 0⟩ : XYZ), gridA, grid1)].get k).2.2.name } :=
  claim_C1 [(⟨0, 0, 0⟩, gridA, grid1)] [1] ⟨docTwo, [], [], 0⟩ 1
    (elemBoth 1 ⟨1, 1, 0⟩) ⟨"Grid Square", "", false⟩ ⟨1, 1, 0⟩
    (by unfold Doc.WF; decide) (by decide) (by decide) rfl rfl rfl rfl (by decide)

theorem writableParamAt_true {d : Doc} {i : Nat} {n : String}
    (h : writableParamAt d i n = true) :
    ∃ e prm, d.getElement i = some e ∧ e.lookupParameter n = some prm ∧
      prm.isReadOnly = false := by
  unfold writableParamAt at h
  cases hget : d.getElement i with
  | none => rw [hget] at h; simp at h
  | some e =>
      rw [hget] at h
      dsimp only at h
      cases hlk : e.lookupParameter n with
      | none => rw [hlk] at h; simp at h
      | some prm =>
          rw [hlk] at h
          simp at h
          exact ⟨e, prm, rfl, hlk, h⟩

theorem numberingBody_not_writable {stn : PassState × Nat} {p : Nat × ℤ}
    (h : writableParamAt stn.1.doc p.1 "Number" = false) :
    numberingBody stn p = stn := by
  unfold numberingBody
  unfold writableParamAt at h
  cases hget : stn.1.doc.getElement p.1 with
  | none => simp [hget]
  | some elem =>
      rw [hget] at h
      dsimp only at h
      cases hlk : elem.lookupParameter "Number" with
      | none => simp [hget, hlk]
      | some prm =>
          rw [hlk] at h
          simp at h
          simp [hget, hlk, h]

theorem numberingBody_writable {stn : PassState × Nat} {p : Nat × ℤ}
    {elem : Element} {prm : ParamSlot}
    (hget : stn.1.doc.getElement p.1 = some elem)
    (hlk : elem.lookupParameter "Number" = some prm)
    (hro : prm.isReadOnly = false) :
    numberingBody stn p =
      (⟨stn.1.doc.setElement (elem.setParameter "Number" (toString stn.2)),
        insertId stn.1.modified p.1,
        stn.1.writes ++ [(p.1, "Number", toString stn.2)],
        stn.1.distCalls⟩, stn.2 + 1) := by
  have hei : elem.eid = p.1 := getElement_some_eid hget
  unfold numberingBody
  simp [hget, hlk, hro, hei]

theorem ewd_ids (d : Doc) (sel : List Nat) (sp : XYZ) :
    (elements_with_distance d sel sp).map Prod.fst
      = sel.filter (fun i => locatedAt d i) := by
  rw [elements_with_distance_eq]
  induction sel with
  | nil => rfl
  | cons i rest ih =>
      simp only [List.filterMap_cons, List.filter_cons]
      cases he : ewdEntry d sp i with
      | none =>
          have hl : locatedAt d i = false := by
            rw [← ewdEntry_isSome_iff, he]
            rfl
          simp [hl, ih]
      | some q =>
          have hl : locatedAt d i = true := by
            rw [← ewdEntry_isSome_iff, he]
            rfl
          simp [hl, ih, ewdEntry_some_fst he]

theorem numberingFold_spec :
    ∀ (l : List (Nat × ℤ)) (stn : PassState × Nat),
      stn.1.doc.WF → (l.map Prod.fst).Nodup →
      ((l.foldl numberingBody stn).1.writes
          = stn.1.writes ++ numberedWrites stn.2
              (l.filter (fun p => writableParamAt stn.1.doc p.1 "Number")) ∧
        (l.foldl numberingBody stn).2
          = stn.2 + (l.filter
              (fun p => writableParamAt stn.1.doc p.1 "Number")).length ∧
        ∀ j (hj : j < (l.filter
            (fun p => writableParamAt stn.1.doc p.1 "Number")).length),
          ∃ e' s,
            (l.foldl numberingBody stn).1.doc.getElement
                ((l.filter (fun p => writableParamAt stn.1.doc p.1 "Number")).get
                  ⟨j, hj⟩).1
              = some e' ∧
            e'.lookupParameter "Number" = some s ∧
            s.value = toString (stn.2 + j))
  | [], stn, hWF, hnd => by
      refine ⟨by simp [numberedWrites], by simp, ?_⟩
      intro j hj
      simp at hj
  | p :: rest, stn, hWF, hnd => by
      have hnd' : (rest.map Prod.fst).Nodup := by
        simp only [List.map_cons, List.nodup_cons] at hnd
        exact hnd.2
      have hpnotin : p.1 ∉ rest.map Prod.fst := by
        simp only [List.map_cons, List.nodup_cons] at hnd
        exact hnd.1
      cases hw : writableParamAt stn.1.doc p.1 "Number" with
      | false =>
          have hb : numberingBody stn p = stn := numberingBody_not_writable hw
          have hfc : (p :: rest).filter
                (fun q => writableParamAt stn.1.doc q.1 "Number")
              = rest.filter (fun q => writableParamAt stn.1.doc q.1 "Number") := by
            simp [List.filter_cons, hw]
          rw [List.foldl_cons, hb, hfc]
          exact numberingFold_spec rest stn hWF hnd'
      | true =>
          obtain ⟨elem, prm, hget, hlk, hro⟩ := writableParamAt_true hw
          have hb := numberingBody_writable hget hlk hro
          have hev1 : ShapeEvolves stn.1.doc (numberingBody stn p).1.doc
              (p.1 :: rest.map Prod.fst) :=
            numberingBody_evolves stn p hWF _ (List.mem_cons_self _ _)
          have hWF' : (numberingBody stn p).1.doc.WF := hev1.WF_of hWF
          have hfiltcongr :
              rest.filter
                  (fun q => writableParamAt (numberingBody stn p).1.doc q.1 "Number")
                = rest.filter (fun q => writableParamAt stn.1.doc q.1 "Number") :=
            List.filter_congr (fun q _ => by rw [hev1.writableAt_eq q.1 "Number"])
          have ih := numberingFold_spec rest (numberingBody stn p) hWF' hnd'
          rw [hfiltcongr] at ih
          obtain ⟨ihw, ihc, ihv⟩ := ih
          have hbw : (numberingBody stn p).1.writes
              = stn.1.writes ++ [(p.1, "Number", toString stn.2)] := by
            rw [hb]
          have hbc : (numberingBody stn p).2 = stn.2 + 1 := by
            rw [hb]
          have hfc : (p :: rest).filter
                (fun q => writableParamAt stn.1.doc q.1 "Number")
              = p :: rest.filter (fun q => writableParamAt stn.1.doc q.1 "Number") := by
            simp [List.filter_cons, hw]
          rw [List.foldl_cons, hfc]
          refine ⟨?_, ?_, ?_⟩
          · rw [ihw, hbw, hbc, numberedWrites]
            simp
          · rw [ihc, hbc]
            simp only [List.length_cons]
            omega
          · intro j hj
            cases j with
            | zero =>
                have hgetb : (numberingBody stn p).1.doc.getElement p.1
                    = some (elem.setParameter "Number" (toString stn.2)) := by
                  rw [hb]
                  exact getElement_setElement_self hget
                    (setParameter_eid elem _ _)
                have hev2 : ShapeEvolves (numberingBody stn p).1.doc
                    ((List.foldl numberingBody (numberingBody stn p) rest).1).doc
                    (rest.map Prod.fst) :=
                  numberingFold_evolves rest (numberingBody stn p) _ hWF'
                    (fun q hq => List.mem_map_of_mem Prod.fst hq)
                refine ⟨elem.setParameter "Number" (toString stn.2),
                  { prm with value := toString stn.2 }, ?_, ?_, by simp⟩
                · show (List.foldl numberingBody (numberingBody stn p) rest).1.doc.getElement
                      ((p :: _).get ⟨0, _⟩).1 = _
                  rw [List.get]
                  rw [hev2.frame hpnotin]
                  exact hgetb
                · exact lookupParameter_setParameter_self hlk _
            | succ j' =>
                have hj' : j' < (rest.filter
                    (fun q => writableParamAt stn.1.doc q.1 "Number")).length := by
                  simpa using hj
                obtain ⟨e', s, hge, hls, hval⟩ := ihv j' hj'
                refine ⟨e', s, ?_, hls, ?_⟩
                · show (List.foldl numberingBody (numberingBody stn p) rest).1.doc.getElement
                      ((p :: rest.filter _).get ⟨j' + 1, _⟩).1 = some e'
                  rw [List.get]
                  exact hge
                · rw [hval, hbc]
                  congr 1
                  omega

theorem numberingPass_eq (sp : XYZ) (sel : List Nat) (st : PassState) :
    numberingPass sp sel st =
      (((elements_with_distance st.doc sel sp).mergeSort
          (fun a b => decide (a.2 ≤ b.2))).foldl numberingBody
        ({ st with distCalls := st.distCalls
            + (elements_with_distance st.doc sel sp).length }, 1)).1 := rfl

theorem sorted_ids_nodup (d : Doc) (sel : List Nat) (sp : XYZ)
    (hsel : sel.Nodup) :
    (((elements_with_distance d sel sp).mergeSort
        (fun a b => decide (a.2 ≤ b.2))).map Prod.fst).Nodup := by
  have hperm : List.Perm
      (((elements_with_distance d sel sp).mergeSort
        (fun a b => decide (a.2 ≤ b.2))).map Prod.fst)
      ((elements_with_distance d sel sp).map Prod.fst) :=
    (List.mergeSort_perm _ _).map Prod.fst
  rw [hperm.nodup_iff, ewd_ids]
  exact hsel.filter _

theorem mergeSort_pairwise_le (l : List (Nat × ℤ)) :
    List.Pairwise (fun a b : Nat × ℤ => a.2 ≤ b.2)
      (l.mergeSort (fun a b => decide (a.2 ≤ b.2))) := by
  have h : (l.mergeSort (fun a b : Nat × ℤ => decide (a.2 ≤ b.2))).Pairwise
      (fun a b : Nat × ℤ => decide (a.2 ≤ b.2)) :=
    @List.sorted_mergeSort (Nat × ℤ) (fun a b => decide (a.2 ≤ b.2))
      (fun a b c hab hbc =>
        decide_eq_true
          (le_trans (of_decide_eq_true hab) (of_decide_eq_true hbc)))
      (fun a b => by
        by_cases hab : a.2 ≤ b.2
        · simp [hab]
        · simp [le_of_not_le hab])
      l
  exact h.imp (fun hab => of_decide_eq_true hab)

theorem pairwise_get_le {l : List (Nat × ℤ)}
    (h : List.Pairwise (fun a b : Nat × ℤ => a.2 ≤ b.2) l)
    (j1 j2 : Nat) (h1 : j1 < l.length) (h2 : j2 < l.length) (hlt : j1 < j2) :
    (l.get ⟨j1, h1⟩).2 ≤ (l.get ⟨j2, h2⟩).2 :=
  List.Sorted.rel_get_of_lt h hlt

/-- C2 counterexample: on a selection where element 1 has no resolvable
location and element 3 has a read-only "Number" parameter, only element 2 is
numbered (receiving "1"), so the claim that every selected element is
assigned a sequential number fails. -/
theorem claim_C2_counterexample :
    (numberingPass ⟨0, 0, 0⟩ [1, 2, 3] ⟨docCE2, [], [], 0⟩).writes
        = [(2, "Number", "1")] ∧
    ¬ ∀ i ∈ ([1, 2, 3] : List Nat), ∃ v,
        (i, "Number", v)
          ∈ (numberingPass ⟨0, 0, 0⟩ [1, 2, 3] ⟨docCE2, [], [], 0⟩).writes := by
  have hewd : elements_with_distance docCE2 [1, 2, 3] ⟨0, 0, 0⟩
      = [((2 : Nat), (4 : ℤ)), (3, 25)] := by decide
  have hms : (elements_with_distance docCE2 [1, 2, 3] ⟨0, 0, 0⟩).mergeSort
        (fun a b => decide (a.2 ≤ b.2))
      = [((2 : Nat), (4 : ℤ)), (3, 25)] := by
    rw [hewd]
    exact List.mergeSort_of_sorted (by decide)
  have hwr : (numberingPass ⟨0, 0, 0⟩ [1, 2, 3] ⟨docCE2, [], [], 0⟩).writes
      = [(2, "Number", "1")] := by
    rw [numberingPass_eq]
    rw [show elements_with_distance
        ((⟨docCE2, [], [], 0⟩ : PassState)).doc [1, 2, 3] ⟨0, 0, 0⟩
      = [((2 : Nat), (4 : ℤ)), (3, 25)] from hewd]
    rw [List.mergeSort_of_sorted (by decide)]
    decide
  refine ⟨hwr, fun hall => ?_⟩
  obtain ⟨v, hv⟩ := hall 1 (by decide)
  rw [hwr] at hv
  simp at hv

/-- C2 (amended): the numbering loop assigns consecutive numbers "1", "2", ...
in order of ascending distance from the start point to exactly those selected
elements whose location resolves to a point and whose "Number" parameter
exists and is writable (`numberTargets`); distances are compared via the
squared Euclidean distance, which induces the same order as the Euclidean
distance; ties keep selection order (both Python's `list.sort` and
`List.mergeSort` are stable); among the numbered elements a strictly nearer
one always receives a strictly smaller number, and no number is skipped or
repeated. -/
theorem claim_C2 (sp : XYZ) (sel : List Nat) (st : PassState)
    (hWF : st.doc.WF) (hsel : sel.Nodup) :
    (numberingPass sp sel st).writes
        = st.writes ++ numberedWrites 1 (numberTargets st.doc sel sp) ∧
    (∀ j (hj : j < (numberTargets st.doc sel sp).length),
      ∃ e' s, (numberingPass sp sel st).doc.getElement
            ((numberTargets st.doc sel sp).get ⟨j, hj⟩).1 = some e' ∧
        e'.lookupParameter "Number" = some s ∧ s.value = toString (j + 1)) ∧
    List.Pairwise (fun a b : Nat × ℤ => a.2 ≤ b.2)
      (numberTargets st.doc sel sp) ∧
    (∀ i ∈ sel, locatedAt st.doc i = true →
      writableParamAt st.doc i "Number" = true →
      i ∈ (numberTargets st.doc sel sp).map Prod.fst) ∧
    (∀ j1 j2 (h1 : j1 < (numberTargets st.doc sel sp).length)
        (h2 : j2 < (numberTargets st.doc sel sp).length),
      ((numberTargets st.doc sel sp).get ⟨j1, h1⟩).2
          < ((numberTargets st.doc sel sp).get ⟨j2, h2⟩).2 → j1 < j2) := by
  have hnd := sorted_ids_nodup st.doc sel sp hsel
  have hspec := numberingFold_spec
    ((elements_with_distance st.doc sel sp).mergeSort
      (fun a b => decide (a.2 ≤ b.2)))
    ({ st with distCalls :=
        st.distCalls + (elements_with_distance st.doc sel sp).length }, 1)
    hWF hnd
  obtain ⟨hw, hc, hv⟩ := hspec
  have hpw : List.Pairwise (fun a b : Nat × ℤ => a.2 ≤ b.2)
      (numberTargets st.doc sel sp) :=
    (mergeSort_pairwise_le (elements_with_distance st.doc sel sp)).filter _
  refine ⟨hw, ?_, hpw, ?_, ?_⟩
  · intro j hj
    obtain ⟨e', s, hge, hls, hval⟩ := hv j hj
    refine ⟨e', s, hge, hls, ?_⟩
    rw [hval]
    congr 1
    omega
  · intro i hi hloc hwp
    obtain ⟨e, hget, hpt⟩ : ∃ e, st.doc.getElement i = some e ∧
        (get_element_location e.location).isSome = true := by
      unfold locatedAt at hloc
      cases hget : st.doc.getElement i with
      | none => rw [hget] at hloc; simp at hloc
      | some e =>
          rw [hget] at hloc
          dsimp only at hloc
          exact ⟨e, rfl, hloc⟩
    obtain ⟨pt, hpt'⟩ := Option.isSome_iff_exists.mp hpt
    have hmemewd : (i, pt.distSqTo sp) ∈ elements_with_distance st.doc sel sp := by
      rw [elements_with_distance_eq]
      refine List.mem_filterMap.mpr ⟨i, hi, ?_⟩
      unfold ewdEntry
      rw [hget]
      dsimp only
      rw [hpt']
      rfl
    have hmemsort : (i, pt.distSqTo sp)
        ∈ (elements_with_distance st.doc sel sp).mergeSort
            (fun a b => decide (a.2 ≤ b.2)) :=
      List.mem_mergeSort.mpr hmemewd
    have hmemtgt : (i, pt.distSqTo sp) ∈ numberTargets st.doc sel sp := by
      unfold numberTargets
      exact List.mem_filter.mpr ⟨hmemsort, hwp⟩
    exact List.mem_map_of_mem Prod.fst hmemtgt
  · intro j1 j2 h1 h2 hlt
    rcases Nat.lt_trichotomy j1 j2 with h | h | h
    · exact h
    · subst h
      exact absurd hlt (lt_irrefl _)
    · have hle := pairwise_get_le hpw j2 j1 h2 h1 h
      exact absurd hlt (not_lt.mpr hle)

theorem classify_aux (l : List Grid) :
    ∀ (a b : List Grid),
      l.foldl
        (fun vh g =>
          if |g.direction.x| > |g.direction.y| then (vh.1, vh.2 ++ [g])
          else (vh.1 ++ [g], vh.2)) (a, b)
      = (a ++ l.filter (fun g => !decide (|g.direction.x| > |g.direction.y|)),
          b ++ l.filter (fun g => decide (|g.direction.x| > |g.direction.y|))) := by
  induction l with
  | nil => intro a b; simp
  | cons g rest ih =>
      intro a b
      rw [List.foldl_cons]
      by_cases h : |g.direction.x| > |g.direction.y|
      · rw [if_pos h, ih a (b ++ [g])]
        simp only [List.filter_cons]
        rw [if_neg (by simp [h]), if_pos (by simp [h])]
        simp
      · rw [if_neg h, ih (a ++ [g]) b]
        simp only [List.filter_cons]
        rw [if_pos (by simp [h]), if_neg (by simp [h])]
        simp

theorem classify_eq (grids : List Grid) :
    classify_grids grids
      = (grids.filter (fun g => !decide (|g.direction.x| > |g.direction.y|)),
          grids.filter (fun g => decide (|g.direction.x| > |g.direction.y|))) := by
  unfold classify_grids
  rw [classify_aux grids [] []]
  simp

theorem mem_get_grid_intersections {intersect : IntersectOracle}
    {V H : List Grid} {ip : XYZ} {vg hg : Grid} :
    (ip, vg, hg) ∈ get_grid_intersections intersect V H ↔
      vg ∈ V ∧ hg ∈ H ∧ (intersect vg hg).1 = SetComparisonResult.Overlap ∧
        (intersect vg hg).2.head? = some ip := by
  unfold get_grid_intersections
  rw [List.mem_flatMap]
  constructor
  · rintro ⟨v, hv, hmem⟩
    obtain ⟨h', hh', hf⟩ := List.mem_filterMap.mp hmem
    rcases hi : intersect v h' with ⟨res, pts⟩
    rw [hi] at hf
    cases res <;> cases pts <;> simp at hf
    obtain ⟨hip, hvv, hhh⟩ := hf
    subst hvv
    subst hhh
    subst hip
    rw [hi]
    exact ⟨hv, hh', rfl, rfl⟩
  · rintro ⟨hv, hh, hres, hhead⟩
    refine ⟨vg, hv, List.mem_filterMap.mpr ⟨hg, hh, ?_⟩⟩
    rcases hi : intersect vg hg with ⟨res, pts⟩
    rw [hi] at hres hhead
    simp only at hres hhead
    subst hres
    cases pts with
    | nil => simp at hhead
    | cons ip' rest =>
        simp at hhead
        subst hhead
        rfl

theorem mem_result_pair {intersect : IntersectOracle} {V H : List Grid}
    {t : XYZ × Grid × Grid} (h : t ∈ get_grid_intersections intersect V H) :
    t.2.1 ∈ V ∧ t.2.2 ∈ H := by
  rcases t with ⟨ip, vg, hg⟩
  have := mem_get_grid_intersections.mp h
  exact ⟨this.1, this.2.1⟩

theorem count_inner (intersect : IntersectOracle) (v vg hg : Grid) :
    ∀ (H : List Grid), H.Nodup →
      ((H.filterMap (fun hgx =>
          match intersect v hgx with
          | (SetComparisonResult.Overlap, ip :: _) => some (ip, v, hgx)
          | _ => Option.none)).countP (fun t => decide (t.2 = (vg, hg))))
      = if v = vg ∧ hg ∈ H ∧ (intersect vg hg).1 = SetComparisonResult.Overlap ∧
            (intersect vg hg).2 ≠ []
        then 1 else 0
  | [], _ => by simp
  | h' :: rest, hnd => by
      have hnd' : rest.Nodup := (List.nodup_cons.mp hnd).2
      have hnotin : h' ∉ rest := (List.nodup_cons.mp hnd).1
      have ih := count_inner intersect v vg hg rest hnd'
      rw [List.filterMap_cons]
      rcases hi : intersect v h' with ⟨res, pts⟩
      by_cases hover : res = SetComparisonResult.Overlap ∧ pts ≠ []
      · obtain ⟨hov, hpts⟩ := hover
        obtain ⟨ip, tl, rfl⟩ : ∃ ip tl, pts = ip :: tl := by
          cases pts with
          | nil => exact absurd rfl hpts
          | cons ip tl => exact ⟨ip, tl, rfl⟩
        subst hov
        dsimp only
        rw [List.countP_cons, ih]
        by_cases hvv : v = vg ∧ h' = hg
        · obtain ⟨h1, h2⟩ := hvv
          have hhg : hg ∉ rest := h2 ▸ hnotin
          have hC : (intersect vg hg).1 = SetComparisonResult.Overlap ∧
              (intersect vg hg).2 ≠ [] := by
            rw [← h1, ← h2, hi]
            exact ⟨rfl, by simp⟩
          simp [h1, h2, hhg, hC.1, hC.2]
        · have hpred : ¬((ip, v, h').2 = (vg, hg)) := by
            simp only [Prod.mk.injEq]
            exact fun hc => hvv ⟨hc.1, hc.2⟩
          have hcondiff : (v = vg ∧ hg ∈ h' :: rest ∧
                (intersect vg hg).1 = SetComparisonResult.Overlap ∧
                (intersect vg hg).2 ≠ [])
              ↔ (v = vg ∧ hg ∈ rest ∧
                (intersect vg hg).1 = SetComparisonResult.Overlap ∧
                (intersect vg hg).2 ≠ []) := by
            constructor
            · rintro ⟨ha, hb, hc⟩
              rcases List.mem_cons.mp hb with hb1 | hb2
              · exact absurd ⟨ha, hb1.symm⟩ hvv
              · exact ⟨ha, hb2, hc⟩
            · rintro ⟨ha, hb, hc⟩
              exact ⟨ha, List.mem_cons_of_mem _ hb, hc⟩
          have hz : (if decide ((ip, v, h').2 = (vg, hg)) = true then 1 else 0) = 0 := by
            simp [hpred]
          rw [hz, Nat.add_zero]
          exact if_congr hcondiff.symm rfl rfl
      · have hmatch : (match ((res, pts) : SetComparisonResult × List XYZ) with
            | (SetComparisonResult.Overlap, ip :: _) => some (ip, v, h')
            | _ => Option.none) = Option.none := by
          cases res <;> cases pts <;>
            first
            | rfl
            | exact absurd ⟨rfl, by simp⟩ hover
        rw [hmatch]
        dsimp only
        rw [ih]
        have hcondiff : (v = vg ∧ hg ∈ h' :: rest ∧
              (intersect vg hg).1 = SetComparisonResult.Overlap ∧
              (intersect vg hg).2 ≠ [])
            ↔ (v = vg ∧ hg ∈ rest ∧
              (intersect vg hg).1 = SetComparisonResult.Overlap ∧
              (intersect vg hg).2 ≠ []) := by
          constructor
          · rintro ⟨ha, hb, hc⟩
            rcases List.mem_cons.mp hb with hb1 | hb2
            · exfalso
              apply hover
              have heq : intersect v h' = intersect vg hg := by
                rw [ha, hb1]
              rw [← heq, hi] at hc
              exact hc
            · exact ⟨ha, hb2, hc⟩
          · rintro ⟨ha, hb, hc⟩
            exact ⟨ha, List.mem_cons_of_mem _ hb, hc⟩
        exact if_congr hcondiff.symm rfl rfl

theorem count_result (intersect : IntersectOracle) (vg hg : Grid) :
    ∀ (V : List Grid) (H : List Grid), V.Nodup → H.Nodup →
      (get_grid_intersections intersect V H).countP
          (fun t => decide (t.2 = (vg, hg)))
        = if vg ∈ V ∧ hg ∈ H ∧ (intersect vg hg).1 = SetComparisonResult.Overlap ∧
              (intersect vg hg).2 ≠ []
          then 1 else 0
  | [], H, _, _ => by simp [get_grid_intersections]
  | v :: rest, H, hndV, hndH => by
      have hndV' : rest.Nodup := (List.nodup_cons.mp hndV).2
      have hvnotin : v ∉ rest := (List.nodup_cons.mp hndV).1
      have ih := count_result intersect vg hg rest H hndV' hndH
      show ((v :: rest).flatMap _).countP _ = _
      rw [List.flatMap_cons, List.countP_append]
      have hinner := count_inner intersect v vg hg H hndH
      rw [hinner]
      show _ + (get_grid_intersections intersect rest H).countP _ = _
      rw [ih]
      by_cases hv1 : v = vg
      · have hn2 : vg ∉ rest := hv1 ▸ hvnotin
        simp [hv1, hn2]
      · simp [hv1, List.mem_cons,
          (show ¬vg = v from fun hc => hv1 hc.symm)]

theorem mem_intersectT_trace {intersect : IntersectOracle} {V H : List Grid}
    (p : Grid × Grid) :
    p ∈ (get_grid_intersectionsT intersect V H).2 ↔ p.1 ∈ V ∧ p.2 ∈ H := by
  unfold get_grid_intersectionsT
  simp only [List.mem_flatMap, List.mem_map]
  constructor
  · rintro ⟨v, hv, hg, hh, hp⟩
    rw [← hp]
    exact ⟨hv, hh⟩
  · rintro ⟨h1, h2⟩
    exact ⟨p.1, h1, p.2, h2, by simp⟩

/-- C4: the grid classification marks a grid horizontal exactly when the
absolute X component of its curve direction exceeds the absolute Y component
and vertical otherwise; the computed intersection set contains, for every
(vertical, horizontal) pair reported as `Overlap` with at least one result
point, exactly one tuple carrying the first result point and that pair — and
nothing else; and the oracle is consulted exactly on the vertical×horizontal
pairs, never on vertical-vertical or horizontal-horizontal pairs. -/
theorem claim_C4 (intersect : IntersectOracle) (grids : List Grid)
    (hnd : grids.Nodup) :
    classify_grids grids
        = (grids.filter (fun g => !decide (|g.direction.x| > |g.direction.y|)),
            grids.filter (fun g => decide (|g.direction.x| > |g.direction.y|))) ∧
    (∀ (ip : XYZ) (vg hg : Grid),
      (ip, vg, hg) ∈ get_grid_intersections intersect
          (classify_grids grids).1 (classify_grids grids).2
        ↔ vg ∈ (classify_grids grids).1 ∧ hg ∈ (classify_grids grids).2 ∧
          (intersect vg hg).1 = SetComparisonResult.Overlap ∧
          (intersect vg hg).2.head? = some ip) ∧
    (∀ vg hg : Grid,
      (get_grid_intersections intersect
          (classify_grids grids).1 (classify_grids grids).2).countP
          (fun t => decide (t.2 = (vg, hg)))
        = if vg ∈ (classify_grids grids).1 ∧ hg ∈ (classify_grids grids).2 ∧
              (intersect vg hg).1 = SetComparisonResult.Overlap ∧
              (intersect vg hg).2 ≠ []
          then 1 else 0) ∧
    ((get_grid_intersectionsT intersect
          (classify_grids grids).1 (classify_grids grids).2).1
        = get_grid_intersections intersect
            (classify_grids grids).1 (classify_grids grids).2) ∧
    (∀ p : Grid × Grid,
      p ∈ (get_grid_intersectionsT intersect
          (classify_grids grids).1 (classify_grids grids).2).2
        ↔ p.1 ∈ (classify_grids grids).1 ∧ p.2 ∈ (classify_grids grids).2) ∧
    (∀ g ∈ (classify_grids grids).1, ¬(|g.direction.x| > |g.direction.y|)) ∧
    (∀ g ∈ (classify_grids grids).2, |g.direction.x| > |g.direction.y|) := by
  have hcl := classify_eq grids
  have hndV : (classify_grids grids).1.Nodup := by
    rw [hcl]
    exact hnd.filter _
  have hndH : (classify_grids grids).2.Nodup := by
    rw [hcl]
    exact hnd.filter _
  refine ⟨hcl, fun ip vg hg => mem_get_grid_intersections,
    fun vg hg => count_result intersect vg hg _ _ hndV hndH,
    rfl, fun p => mem_intersectT_trace p, ?_, ?_⟩
  · intro g hg
    rw [hcl] at hg
    have := List.of_mem_filter hg
    simpa using this
  · intro g hg
    rw [hcl] at hg
    have := List.of_mem_filter hg
    simpa using this

/-- Witness for C4 at a concrete input: two grids, one vertical and one
horizontal, overlapping at the origin. -/
theorem claim_C4_witness :
    classify_grids [gridA, grid1]
        = ([gridA, grid1].filter
              (fun g => !decide (|g.direction.x| > |g.direction.y|)),
            [gridA, grid1].filter
              (fun g => decide (|g.direction.x| > |g.direction.y|))) ∧
    (∀ (ip : XYZ) (vg hg : Grid),
      (ip, vg, hg) ∈ get_grid_intersections originOracle
          (classify_grids [gridA, grid1]).1 (classify_grids [gridA, grid1]).2
        ↔ vg ∈ (classify_grids [gridA, grid1]).1 ∧
          hg ∈ (classify_grids [gridA, grid1]).2 ∧
          (originOracle vg hg).1 = SetComparisonResult.Overlap ∧
          (originOracle vg hg).2.head? = some ip) ∧
    (∀ vg hg : Grid,
      (get_grid_intersections originOracle
          (classify_grids [gridA, grid1]).1 (classify_grids [gridA, grid1]).2).countP
          (fun t => decide (t.2 = (vg, hg)))
        = if vg ∈ (classify_grids [gridA, grid1]).1 ∧
              hg ∈ (classify_grids [gridA, grid1]).2 ∧
              (originOracle vg hg).1 = SetComparisonResult.Overlap ∧
              (originOracle vg hg).2 ≠ []
          then 1 else 0) ∧
    ((get_grid_intersectionsT originOracle
          (classify_grids [gridA, grid1]).1 (classify_grids [gridA, grid1]).2).1
        = get_grid_intersections originOracle
            (classify_grids [gridA, grid1]).1 (classify_grids [gridA, grid1]).2) ∧
    (∀ p : Grid × Grid,
      p ∈ (get_grid_intersectionsT originOracle
          (classify_grids [gridA, grid1]).1 (classify_grids [gridA, grid1]).2).2
        ↔ p.1 ∈ (classify_grids [gridA, grid1]).1 ∧
          p.2 ∈ (classify_grids [gridA, grid1]).2) ∧
    (∀ g ∈ (classify_grids [gridA, grid1]).1,
      ¬(|g.direction.x| > |g.direction.y|)) ∧
    (∀ g ∈ (classify_grids [gridA, grid1]).2,
      |g.direction.x| > |g.direction.y|) :=
  claim_C4 originOracle [gridA, grid1] (by decide)

/-- Witness for C2 (amended) at a concrete input: two located elements with
writable "Number" parameters, numbered from the element at (1,1,0). -/
theorem claim_C2_witness :
    (numberingPass ⟨1, 1, 0⟩ [1, 2] ⟨docTwo, [], [], 0⟩).writes
        = [] ++ numberedWrites 1 (numberTargets docTwo [1, 2] ⟨1, 1, 0⟩) ∧
    (∀ j (hj : j < (numberTargets docTwo [1, 2] ⟨1, 1, 0⟩).length),
      ∃ e' s, (numberingPass ⟨1, 1, 0⟩ [1, 2] ⟨docTwo, [], [], 0⟩).doc.getElement
            ((numberTargets docTwo [1, 2] ⟨1, 1, 0⟩).get ⟨j, hj⟩).1 = some e' ∧
        e'.lookupParameter "Number" = some s ∧ s.value = toString (j + 1)) ∧
    List.Pairwise (fun a b : Nat × ℤ => a.2 ≤ b.2)
      (numberTargets docTwo [1, 2] ⟨1, 1, 0⟩) ∧
    (∀ i ∈ ([1, 2] : List Nat), locatedAt docTwo i = true →
      writableParamAt docTwo i "Number" = true →
      i ∈ (numberTargets docTwo [1, 2] ⟨1, 1, 0⟩).map Prod.fst) ∧
    (∀ j1 j2 (h1 : j1 < (numberTargets docTwo [1, 2] ⟨1, 1, 0⟩).length)
        (h2 : j2 < (numberTargets docTwo [1, 2] ⟨1, 1, 0⟩).length),
      ((numberTargets docTwo [1, 2] ⟨1, 1, 0⟩).get ⟨j1, h1⟩).2
          < ((numberTargets docTwo [1, 2] ⟨1, 1, 0⟩).get ⟨j2, h2⟩).2 → j1 < j2) :=
  claim_C2 ⟨1, 1, 0⟩ [1, 2] ⟨docTwo, [], [], 0⟩ (by unfold Doc.WF; decide)
    (by decide)

theorem mem_buildCatSet_aux (categories : List Category) :
    ∀ (acc : List Category) (c : Category),
      (c ∈ categories.foldl
        (fun s c =>
          if c.allowsBoundParameters then (if c ∈ s then s else s ++ [c]) else s)
        acc)
      ↔ c ∈ acc ∨ (c ∈ categories ∧ c.allowsBoundParameters = true) := by
  induction categories with
  | nil => intro acc c; simp
  | cons c' rest ih =>
      intro acc c
      rw [List.foldl_cons]
      by_cases ha : c'.allowsBoundParameters
      · by_cases hm : c' ∈ acc
        · rw [if_pos ha, if_pos hm, ih]
          constructor
          · rintro (h | ⟨h1, h2⟩)
            · exact Or.inl h
            · exact Or.inr ⟨List.mem_cons_of_mem _ h1, h2⟩
          · rintro (h | ⟨h1, h2⟩)
            · exact Or.inl h
            · rcases List.mem_cons.mp h1 with h3 | h3
              · exact Or.inl (h3 ▸ hm)
              · exact Or.inr ⟨h3, h2⟩
        · rw [if_pos ha, if_neg hm, ih]
          constructor
          · rintro (h | ⟨h1, h2⟩)
            · rcases List.mem_append.mp h with h3 | h3
              · exact Or.inl h3
              · rw [List.mem_singleton.mp h3]
                exact Or.inr ⟨List.mem_cons_self _ _, ha⟩
            · exact Or.inr ⟨List.mem_cons_of_mem _ h1, h2⟩
          · rintro (h | ⟨h1, h2⟩)
            · exact Or.inl (List.mem_append.mpr (Or.inl h))
            · rcases List.mem_cons.mp h1 with h3 | h3
              · exact Or.inl (List.mem_append.mpr (Or.inr (by simp [h3])))
              · exact Or.inr ⟨h3, h2⟩
      · rw [if_neg ha, ih]
        constructor
        · rintro (h | ⟨h1, h2⟩)
          · exact Or.inl h
          · exact Or.inr ⟨List.mem_cons_of_mem _ h1, h2⟩
        · rintro (h | ⟨h1, h2⟩)
          · exact Or.inl h
          · rcases List.mem_cons.mp h1 with h3 | h3
            · exact absurd (h3 ▸ h2) ha
            · exact Or.inr ⟨h3, h2⟩

theorem mem_buildCatSet (categories : List Category) (c : Category) :
    c ∈ buildCatSet categories
      ↔ c ∈ categories ∧ c.allowsBoundParameters = true := by
  unfold buildCatSet
  rw [mem_buildCatSet_aux categories [] c]
  simp

theorem findBinding_some {bs : List (ParamDefinition × Binding)} {n : String}
    {db : ParamDefinition × Binding} (h : findBinding bs n = some db) :
    db.1.dname = n ∧ ∃ pre post, bs = pre ++ db :: post ∧
      ∀ q ∈ pre, ¬(q.1.dname = n) := by
  unfold findBinding at h
  rw [List.find?_eq_some] at h
  obtain ⟨hp, pre, post, hsplit, hpre⟩ := h
  refine ⟨of_decide_eq_true hp, pre, post, hsplit, fun q hq => ?_⟩
  have := hpre q hq
  simpa using this

theorem findBinding_prefix_miss (pre post : List (ParamDefinition × Binding))
    (x : ParamDefinition × Binding) (n : String)
    (hpre : ∀ q ∈ pre, ¬(q.1.dname = n)) (hx : x.1.dname = n) :
    findBinding (pre ++ x :: post) n = some x := by
  unfold findBinding
  rw [List.find?_append]
  have h1 : pre.find? (fun b => b.1.dname = n) = Option.none := by
    rw [List.find?_eq_none]
    intro q hq
    simp [hpre q hq]
  rw [h1, List.find?_cons_of_pos _ (by simp [hx])]
  rfl

theorem reInsertBinding_append {n : String} {b : Binding} :
    ∀ (pre : List (ParamDefinition × Binding))
      (db : ParamDefinition × Binding)
      (post : List (ParamDefinition × Binding)),
      (∀ q ∈ pre, ¬(q.1.dname = n)) → db.1.dname = n →
      reInsertBinding (pre ++ db :: post) n b = pre ++ (db.1, b) :: post
  | [], db, post, _, hdb => by
      simp [reInsertBinding, hdb]
  | q :: pre, db, post, hpre, hdb => by
      have hq : ¬(q.1.dname = n) := hpre q (List.mem_cons_self _ _)
      show reInsertBinding (q :: (pre ++ db :: post)) n b = _
      rw [reInsertBinding]
      rw [if_neg hq]
      rw [reInsertBinding_append pre db post
        (fun r hr => hpre r (List.mem_cons_of_mem _ hr)) hdb]
      rfl

theorem insertCatId_mem {cs : List Nat} {c : Nat} (h : c ∈ cs) :
    insertCatId cs c = cs := by
  simp [insertCatId, h]

theorem insertCatId_not_mem {cs : List Nat} {c : Nat} (h : c ∉ cs) :
    insertCatId cs c = cs ++ [c] := by
  simp [insertCatId, h]

theorem insertFold_exists (missing : List Category) :
    ∀ (base : List Nat), ∃ added : List Nat,
      missing.foldl
          (fun cs c => if c.allowsBoundParameters then insertCatId cs c.cid else cs)
          base
        = base ++ added ∧
      (∀ a ∈ added, a ∉ base ∧
        ∃ c ∈ missing, c.allowsBoundParameters = true ∧ c.cid = a) ∧
      (∀ c ∈ missing, c.allowsBoundParameters = true →
        c.cid ∈ base ++ added) := by
  induction missing with
  | nil => intro base; exact ⟨[], by simp, by simp, by simp⟩
  | cons c rest ih =>
      intro base
      rw [List.foldl_cons]
      by_cases ha : c.allowsBoundParameters
      · rw [if_pos ha]
        by_cases hm : c.cid ∈ base
        · rw [insertCatId_mem hm]
          obtain ⟨added, heq, hadd, hcov⟩ := ih base
          refine ⟨added, heq, ?_, ?_⟩
          · intro a haa
            obtain ⟨h1, cc, h2, h3⟩ := hadd a haa
            exact ⟨h1, cc, List.mem_cons_of_mem _ h2, h3⟩
          · intro cc hcc hacc
            rcases List.mem_cons.mp hcc with h3 | h3
            · rw [h3]
              exact List.mem_append.mpr (Or.inl hm)
            · exact hcov cc h3 hacc
        · rw [insertCatId_not_mem hm]
          obtain ⟨added, heq, hadd, hcov⟩ := ih (base ++ [c.cid])
          refine ⟨c.cid :: added, by rw [heq]; simp, ?_, ?_⟩
          · intro a haa
            rcases List.mem_cons.mp haa with h3 | h3
            · subst h3
              exact ⟨hm, c, List.mem_cons_self _ _, ha, rfl⟩
            · obtain ⟨h1, cc, h2, h4⟩ := hadd a h3
              refine ⟨fun hc => h1 (List.mem_append.mpr (Or.inl hc)),
                cc, List.mem_cons_of_mem _ h2, h4⟩
          · intro cc hcc hacc
            rcases List.mem_cons.mp hcc with h3 | h3
            · rw [h3]
              simp
            · have := hcov cc h3 hacc
              rcases List.mem_append.mp this with h4 | h4
              · rcases List.mem_append.mp h4 with h5 | h5
                · exact List.mem_append.mpr (Or.inl h5)
                · exact List.mem_append.mpr (Or.inr (by simp [List.mem_singleton.mp h5]))
              · exact List.mem_append.mpr (Or.inr (List.mem_cons_of_mem _ h4))
      · rw [if_neg ha]
        obtain ⟨added, heq, hadd, hcov⟩ := ih base
        refine ⟨added, heq, ?_, ?_⟩
        · intro a haa
          obtain ⟨h1, cc, h2, h3⟩ := hadd a haa
          exact ⟨h1, cc, List.mem_cons_of_mem _ h2, h3⟩
        · intro cc hcc hacc
          rcases List.mem_cons.mp hcc with h3 | h3
          · exact absurd (h3 ▸ hacc) (by simpa using ha)
          · exact hcov cc h3 hacc

theorem findBinding_none_forall {bs : List (ParamDefinition × Binding)}
    {n : String} (h : findBinding bs n = Option.none) :
    ∀ q ∈ bs, ¬(q.1.dname = n) := by
  intro q hq
  unfold findBinding at h
  rw [List.find?_eq_none] at h
  simpa using h q hq

theorem findBinding_append_single {bs : List (ParamDefinition × Binding)}
    {n : String} (h : findBinding bs n = Option.none)
    {x : ParamDefinition × Binding} (hx : x.1.dname = n) :
    findBinding (bs ++ [x]) n = some x := by
  have := findBinding_prefix_miss bs [] x n (findBinding_none_forall h) hx
  simpa using this

theorem ensure_snd_noop (app2 : App) (doc2 : Doc) (pname : String)
    (categories : List Category) (db' : ParamDefinition × Binding)
    (hfind' : findBinding doc2.bindings pname = some db')
    (hcov' : ∀ c ∈ buildCatSet categories, c.cid ∈ db'.2.cats) :
    ensure_text_parameter app2 doc2 pname categories = ⟨doc2, app2, []⟩ := by
  unfold ensure_text_parameter
  rw [hfind']
  dsimp only
  have hnil : ((buildCatSet categories).filter
      (fun c => decide (c.cid ∉ db'.2.cats))) = [] := by
    rw [List.filter_eq_nil_iff]
    intro c hc
    simpa using hcov' c hc
  rw [hnil]
  simp

theorem ensure_covers (app : App) (doc : Doc) (pname : String)
    (categories : List Category) :
    ∃ db', findBinding
        (ensure_text_parameter app doc pname categories).doc.bindings pname
        = some db' ∧
      ∀ c ∈ buildCatSet categories, c.cid ∈ db'.2.cats := by
  unfold ensure_text_parameter
  cases hfind : findBinding doc.bindings pname with
  | some db =>
      dsimp only
      obtain ⟨hdn, pre, post, hsplit, hpre⟩ := findBinding_some hfind
      by_cases hm : ((buildCatSet categories).filter
          (fun c => decide (c.cid ∉ db.2.cats))).length > 0
      · rw [if_pos hm]
        dsimp only
        obtain ⟨added, heq, hadd, hcov⟩ := insertFold_exists
          ((buildCatSet categories).filter
            (fun c => decide (c.cid ∉ db.2.cats))) db.2.cats
        rw [hsplit, reInsertBinding_append pre db post hpre hdn]
        refine ⟨(db.1, ⟨(((buildCatSet categories).filter
            (fun c => decide (c.cid ∉ db.2.cats))).foldl
            (fun cs c => if c.allowsBoundParameters then insertCatId cs c.cid else cs)
            db.2.cats : List Nat)⟩), ?_, ?_⟩
        · exact findBinding_prefix_miss pre post _ pname hpre hdn
        intro c hc
        show c.cid ∈ ((buildCatSet categories).filter
            (fun c => decide (c.cid ∉ db.2.cats))).foldl
            (fun cs c => if c.allowsBoundParameters then insertCatId cs c.cid else cs)
            db.2.cats
        rw [heq]
        by_cases hcin : c.cid ∈ db.2.cats
        · exact List.mem_append.mpr (Or.inl hcin)
        · have hmiss : c ∈ (buildCatSet categories).filter
              (fun c => decide (c.cid ∉ db.2.cats)) :=
            List.mem_filter.mpr ⟨hc, by simpa using hcin⟩
          exact hcov c hmiss ((mem_buildCatSet categories c).mp hc).2
      · rw [if_neg hm]
        refine ⟨db, hfind, ?_⟩
        intro c hc
        have hnil : (buildCatSet categories).filter
            (fun c => decide (c.cid ∉ db.2.cats)) = [] := by
          cases hq : (buildCatSet categories).filter
              (fun c => decide (c.cid ∉ db.2.cats)) with
          | nil => rfl
          | cons a l => rw [hq] at hm; simp at hm
        have := List.filter_eq_nil_iff.mp hnil c hc
        simpa using this
  | none =>
      dsimp only
      cases hdef : ((getOrCreateGroup (openOrCreateSharedFile app).1
          "Grid Tools").1.defs.find? (fun d => d.dname = pname)) with
      | some existing_def =>
          dsimp only
          have hdn : existing_def.dname = pname := by
            have := List.find?_some hdef
            simpa using this
          refine ⟨(existing_def, ⟨(buildCatSet categories).map (fun c => c.cid)⟩),
            findBinding_append_single hfind hdn, ?_⟩
          intro c hc
          exact List.mem_map_of_mem _ hc
      | none =>
          dsimp only
          refine ⟨(⟨pname, PDataType.text⟩,
            ⟨(buildCatSet categories).map (fun c => c.cid)⟩),
            findBinding_append_single hfind rfl, ?_⟩
          intro c hc
          exact List.mem_map_of_mem _ hc

/-- C5 counterexample: when a non-text parameter named "Grid Square" is
already bound, `ensure_text_parameter` returns with its binding updated but
no *text* parameter of that name exists in the binding map. -/
theorem claim_C5_counterexample :
    ((ensure_text_parameter ⟨Option.none⟩ docCE5 "Grid Square" [cat0]).doc.bindings.filter
        (fun b => decide (b.1.dname = "Grid Square" ∧ b.1.dtype = PDataType.text)))
      = [] ∧
    (ensure_text_parameter ⟨Option.none⟩ docCE5 "Grid Square" [cat0]).doc.bindings
      = [(⟨"Grid Square", PDataType.other⟩, ⟨[0]⟩)] := by
  constructor
  · decide
  · decide

/-- C5 (amended): after `ensure_text_parameter(doc, name, categories)` returns
normally, a parameter with that name exists in the binding map and its
binding's category set includes every given category that allows bound
parameters; if a parameter with that name already existed (whatever its data
type — the code matches on the definition name only, line 55), only missing
categories are appended to its binding and nothing else in the binding map or
the application state changes; if none existed, a parameter is created — a
text parameter unless a pre-existing shared-file definition with that name is
reused — and bound to the allowed categories; the call is idempotent. -/
theorem claim_C5 (app : App) (doc : Doc) (pname : String)
    (categories : List Category) :
    (∃ db', findBinding
        (ensure_text_parameter app doc pname categories).doc.bindings pname
        = some db' ∧
      ∀ c ∈ categories, c.allowsBoundParameters = true →
        c.cid ∈ db'.2.cats) ∧
    (∀ db, findBinding doc.bindings pname = some db →
      ∃ pre post added, doc.bindings = pre ++ db :: post ∧
        (∀ q ∈ pre, ¬(q.1.dname = pname)) ∧
        (ensure_text_parameter app doc pname categories).doc.bindings
          = pre ++ (db.1, ⟨db.2.cats ++ added⟩) :: post ∧
        (∀ a ∈ added, a ∉ db.2.cats ∧
          ∃ c ∈ categories, c.allowsBoundParameters = true ∧ c.cid = a) ∧
        (ensure_text_parameter app doc pname categories).app = app) ∧
    (findBinding doc.bindings pname = Option.none →
      ∃ defn, (ensure_text_parameter app doc pname categories).doc.bindings
          = doc.bindings
            ++ [(defn, ⟨(buildCatSet categories).map (fun c => c.cid)⟩)] ∧
        defn.dname = pname ∧
        (app.sharedFile = Option.none → defn = ⟨pname, PDataType.text⟩)) ∧
    (ensure_text_parameter
        (ensure_text_parameter app doc pname categories).app
        (ensure_text_parameter app doc pname categories).doc
        pname categories
      = ⟨(ensure_text_parameter app doc pname categories).doc,
          (ensure_text_parameter app doc pname categories).app, []⟩) := by
  obtain ⟨db', hfind', hcov'⟩ := ensure_covers app doc pname categories
  refine ⟨?_, ?_, ?_, ?_⟩
  · refine ⟨db', hfind', ?_⟩
    intro c hc ha
    exact hcov' c ((mem_buildCatSet categories c).mpr ⟨hc, ha⟩)
  · intro db hfind
    obtain ⟨hdn, pre, post, hsplit, hpre⟩ := findBinding_some hfind
    unfold ensure_text_parameter
    rw [hfind]
    dsimp only
    by_cases hm : ((buildCatSet categories).filter
        (fun c => decide (c.cid ∉ db.2.cats))).length > 0
    · rw [if_pos hm]
      dsimp only
      obtain ⟨added, heq, hadd, hcov⟩ := insertFold_exists
        ((buildCatSet categories).filter
          (fun c => decide (c.cid ∉ db.2.cats))) db.2.cats
      refine ⟨pre, post, added, hsplit, hpre, ?_, ?_, rfl⟩
      · rw [hsplit, reInsertBinding_append pre db post hpre hdn, heq]
      · intro a haa
        obtain ⟨h1, cc, h2, h3⟩ := hadd a haa
        obtain ⟨h4, h5⟩ := List.mem_filter.mp h2
        exact ⟨h1, cc, ((mem_buildCatSet categories cc).mp h4).1,
          ((mem_buildCatSet categories cc).mp h4).2, h3.2⟩
    · rw [if_neg hm]
      refine ⟨pre, post, [], hsplit, hpre, ?_, by simp, rfl⟩
      rw [hsplit]
      simp
  · intro hfind
    unfold ensure_text_parameter
    rw [hfind]
    dsimp only
    cases hdef : ((getOrCreateGroup (openOrCreateSharedFile app).1
        "Grid Tools").1.defs.find? (fun d => d.dname = pname)) with
    | some existing_def =>
        dsimp only
        have hdn : existing_def.dname = pname := by
          have := List.find?_some hdef
          simpa using this
        refine ⟨existing_def, rfl, hdn, ?_⟩
        intro happ
        exfalso
        rw [show openOrCreateSharedFile app = (⟨[]⟩, ⟨some ⟨[]⟩⟩) from by
          unfold openOrCreateSharedFile
          rw [happ]] at hdef
        rw [show getOrCreateGroup (⟨[]⟩ : SPFile) "Grid Tools"
            = (⟨"Grid Tools", []⟩, ⟨[⟨"Grid Tools", []⟩]⟩) from rfl] at hdef
        simp at hdef
    | none =>
        dsimp only
        exact ⟨⟨pname, PDataType.text⟩, rfl, rfl, fun _ => rfl⟩
  · exact ensure_snd_noop _ _ pname categories db' hfind' hcov'

/-- Witness for C5 (amended) at a concrete input: a fresh application and a
document with no bindings; the parameter is created as a text parameter. -/
theorem claim_C5_witness :
    (∃ db', findBinding
        (ensure_text_parameter ⟨Option.none⟩ ⟨[], []⟩ "Number" [cat0]).doc.bindings
          "Number"
        = some db' ∧
      ∀ c ∈ [cat0], c.allowsBoundParameters = true → c.cid ∈ db'.2.cats) ∧
    (∀ db, findBinding (Doc.bindings ⟨[], []⟩) "Number" = some db →
      ∃ pre post added, (Doc.bindings ⟨[], []⟩) = pre ++ db :: post ∧
        (∀ q ∈ pre, ¬(q.1.dname = "Number")) ∧
        (ensure_text_parameter ⟨Option.none⟩ ⟨[], []⟩ "Number" [cat0]).doc.bindings
          = pre ++ (db.1, ⟨db.2.cats ++ added⟩) :: post ∧
        (∀ a ∈ added, a ∉ db.2.cats ∧
          ∃ c ∈ [cat0], c.allowsBoundParameters = true ∧ c.cid = a) ∧
        (ensure_text_parameter ⟨Option.none⟩ ⟨[], []⟩ "Number" [cat0]).app
          = ⟨Option.none⟩) ∧
    (findBinding (Doc.bindings ⟨[], []⟩) "Number" = Option.none →
      ∃ defn, (ensure_text_parameter ⟨Option.none⟩ ⟨[], []⟩ "Number" [cat0]).doc.bindings
          = (Doc.bindings ⟨[], []⟩)
            ++ [(defn, ⟨(buildCatSet [cat0]).map (fun c => c.cid)⟩)] ∧
        defn.dname = "Number" ∧
        (App.sharedFile ⟨Option.none⟩ = Option.none →
          defn = ⟨"Number", PDataType.text⟩)) ∧
    (ensure_text_parameter
        (ensure_text_parameter ⟨Option.none⟩ ⟨[], []⟩ "Number" [cat0]).app
        (ensure_text_parameter ⟨Option.none⟩ ⟨[], []⟩ "Number" [cat0]).doc
        "Number" [cat0]
      = ⟨(ensure_text_parameter ⟨Option.none⟩ ⟨[], []⟩ "Number" [cat0]).doc,
          (ensure_text_parameter ⟨Option.none⟩ ⟨[], []⟩ "Number" [cat0]).app, []⟩) :=
  claim_C5 ⟨Option.none⟩ ⟨[], []⟩ "Number" [cat0]

/-- C6: the assignment transaction (the Grid Square pass followed by the
numbering pass, lines 229-266) writes only to elements of the initial
selection: every element whose id is not among the selected ids is left
entirely unchanged — parameters, location, category and all. -/
theorem claim_C6 (inters : List (XYZ × Grid × Grid)) (sel : List Nat)
    (sp : XYZ) (st : PassState) (hWF : st.doc.WF) :
    ∀ i, i ∉ sel →
      (numberingPass sp sel (gridSquarePass inters sel st)).doc.getElement i
        = st.doc.getElement i := by
  intro i hi
  have h1 := gridSquarePass_evolves inters sel st hWF
  have h2 := numberingPass_evolves sp sel (gridSquarePass inters sel st)
    (h1.WF_of hWF)
  rw [h2.frame hi, h1.frame hi]

/-- Witness for C6: element 2 of `docTwo` is untouched by a run that selects
only element 1. -/
theorem claim_C6_witness :
    (numberingPass ⟨1, 1, 0⟩ [1]
        (gridSquarePass [(⟨0, 0, 0⟩, gridA, grid1)] [1]
          ⟨docTwo, [], [], 0⟩)).doc.getElement 2
      = (⟨docTwo, [], [], 0⟩ : PassState).doc.getElement 2 :=
  claim_C6 [(⟨0, 0, 0⟩, gridA, grid1)] [1] ⟨1, 1, 0⟩ ⟨docTwo, [], [], 0⟩
    (by unfold Doc.WF; decide) 2 (by decide)

theorem gridSquareBody_distCalls (inters : List (XYZ × Grid × Grid))
    (st : PassState) (i : Nat) :
    (gridSquareBody inters st i).distCalls
      = st.distCalls + (if locatedAt st.doc i = true then inters.length else 0) := by
  unfold gridSquareBody locatedAt
  cases hget : st.doc.getElement i with
  | none => simp
  | some elem =>
      dsimp only
      cases hloc : get_element_location elem.location with
      | none => simp
      | some pt =>
          dsimp only
          split
          · simp
          · split
            · simp
            · split
              · simp
              · simp

theorem numberingBody_distCalls (stn : PassState × Nat) (p : Nat × ℤ) :
    (numberingBody stn p).1.distCalls = stn.1.distCalls := by
  unfold numberingBody
  split
  · rfl
  · split
    · rfl
    · split
      · rfl
      · rfl

theorem numberingFold_distCalls :
    ∀ (l : List (Nat × ℤ)) (stn : PassState × Nat),
      ((l.foldl numberingBody stn).1).distCalls = stn.1.distCalls
  | [], _ => rfl
  | p :: rest, stn => by
      show ((rest.foldl numberingBody (numberingBody stn p)).1).distCalls = _
      rw [numberingFold_distCalls rest (numberingBody stn p)]
      exact numberingBody_distCalls stn p

theorem gridSquarePass_distCalls (inters : List (XYZ × Grid × Grid)) :
    ∀ (sel : List Nat) (st : PassState), st.doc.WF →
      (gridSquarePass inters sel st).distCalls
        = st.distCalls
          + (sel.filter (fun i => locatedAt st.doc i)).length * inters.length
  | [], st, _ => by simp [gridSquarePass]
  | i :: rest, st, hWF => by
      have hev := gridSquareBody_evolves inters st i hWF (i :: rest)
        (List.mem_cons_self i rest)
      have hWF' : (gridSquareBody inters st i).doc.WF := hev.WF_of hWF
      have hfc : rest.filter (fun j => locatedAt (gridSquareBody inters st i).doc j)
          = rest.filter (fun j => locatedAt st.doc j) :=
        List.filter_congr (fun j _ => by rw [hev.locatedAt_eq j])
      show (gridSquarePass inters rest (gridSquareBody inters st i)).distCalls = _
      rw [gridSquarePass_distCalls inters rest (gridSquareBody inters st i) hWF',
        hfc, gridSquareBody_distCalls]
      rw [List.filter_cons]
      by_cases hl : locatedAt st.doc i = true
      · rw [if_pos (by simp [hl]), if_pos hl]
        simp only [List.length_cons]
        ring
      · rw [if_neg (by simp [hl]), if_neg hl]
        omega

/-- C7: each pass is a single bounded scan — in Lean the passes are total
structurally recursive functions over the selection and intersection lists,
which witnesses termination for every finite input.  The instrumented
`DistanceTo` counters give the exact work: the Grid Square loop evaluates one
distance per intersection tuple for each located selected element (`n·m`
pairwise work, bounded by `|sel| · |intersections|`), and the numbering pass
evaluates exactly one distance per located selected element. -/
theorem claim_C7 (inters : List (XYZ × Grid × Grid)) (sp : XYZ)
    (sel : List Nat) (st : PassState) (hWF : st.doc.WF) :
    (gridSquarePass inters sel st).distCalls
        = st.distCalls
          + (sel.filter (fun i => locatedAt st.doc i)).length * inters.length ∧
    (gridSquarePass inters sel st).distCalls
        ≤ st.distCalls + sel.length * inters.length ∧
    (numberingPass sp sel st).distCalls
        = st.distCalls + (sel.filter (fun i => locatedAt st.doc i)).length ∧
    (numberingPass sp sel st).distCalls ≤ st.distCalls + sel.length ∧
    (elements_with_distance st.doc sel sp).length
        = (sel.filter (fun i => locatedAt st.doc i)).length := by
  have hgs := gridSquarePass_distCalls inters sel st hWF
  have hlen := ewd_length st.doc sel sp
  have hnum : (numberingPass sp sel st).distCalls
      = st.distCalls + (sel.filter (fun i => locatedAt st.doc i)).length := by
    rw [numberingPass_eq]
    rw [numberingFold_distCalls]
    dsimp only
    rw [hlen]
  have hfle : (sel.filter (fun i => locatedAt st.doc i)).length ≤ sel.length :=
    List.length_filter_le _ _
  refine ⟨hgs, ?_, hnum, ?_, hlen⟩
  · rw [hgs]
    exact Nat.add_le_add_left (Nat.mul_le_mul_right _ hfle) _
  · rw [hnum]
    exact Nat.add_le_add_left hfle _

/-- Witness for C7: two selected elements, one intersection. -/
theorem claim_C7_witness :
    (gridSquarePass [((⟨0, 0, 0⟩ : XYZ), gridA, grid1)] [1, 2]
          ⟨docTwo, [], [], 0⟩).distCalls
        = (⟨docTwo, [], [], 0⟩ : PassState).distCalls
          + (([1, 2] : List Nat).filter
              (fun i => locatedAt docTwo i)).length
            * [((⟨0, 0, 0⟩ : XYZ), gridA, grid1)].length ∧
    (gridSquarePass [((⟨0, 0, 0⟩ : XYZ), gridA, grid1)] [1, 2]
          ⟨docTwo, [], [], 0⟩).distCalls
        ≤ (⟨docTwo, [], [], 0⟩ : PassState).distCalls
          + ([1, 2] : List Nat).length * [((⟨0, 0, 0⟩ : XYZ), gridA, grid1)].length ∧
    (numberingPass ⟨1, 1, 0⟩ [1, 2] ⟨docTwo, [], [], 0⟩).distCalls
        = (⟨docTwo, [], [], 0⟩ : PassState).distCalls
          + (([1, 2] : List Nat).filter (fun i => locatedAt docTwo i)).length ∧
    (numberingPass ⟨1, 1, 0⟩ [1, 2] ⟨docTwo, [], [], 0⟩).distCalls
        ≤ (⟨docTwo, [], [], 0⟩ : PassState).distCalls + ([1, 2] : List Nat).length ∧
    (elements_with_distance docTwo [1, 2] ⟨1, 1, 0⟩).length
        = (([1, 2] : List Nat).filter (fun i => locatedAt docTwo i)).length :=
  claim_C7 [((⟨0, 0, 0⟩ : XYZ), gridA, grid1)] ⟨1, 1, 0⟩ [1, 2] ⟨docTwo, [], [], 0⟩
    (by unfold Doc.WF; decide)

theorem ensure_elems (app : App) (doc : Doc) (pname : String)
    (categories : List Category) :
    (ensure_text_parameter app doc pname categories).doc.elems = doc.elems := by
  unfold ensure_text_parameter
  cases hfind : findBinding doc.bindings pname with
  | some db =>
      dsimp only
      split <;> rfl
  | none =>
      dsimp only
      split <;> rfl

theorem ensure_txns_cases (app : App) (doc : Doc) (pname : String)
    (categories : List Category) :
    (ensure_text_parameter app doc pname categories).txns = [] ∨
    (ensure_text_parameter app doc pname categories).txns
      = [⟨"Update binding for " ++ pname⟩] ∨
    (ensure_text_parameter app doc pname categories).txns
      = [⟨"Add Project Parameter: " ++ pname⟩] := by
  unfold ensure_text_parameter
  cases hfind : findBinding doc.bindings pname with
  | some db =>
      dsimp only
      split
      · exact Or.inr (Or.inl rfl)
      · exact Or.inl rfl
  | none =>
      dsimp only
      split
      · exact Or.inr (Or.inr rfl)
      · exact Or.inr (Or.inr rfl)

theorem docAfterEnsure_elems (inp : RunInput) :
    (docAfterEnsure inp).elems = inp.doc0.elems := by
  unfold docAfterEnsure
  rw [ensure_elems, ensure_elems]

theorem getElement_congr_elems {d1 d2 : Doc} (h : d1.elems = d2.elems)
    (i : Nat) : d1.getElement i = d2.getElement i := by
  unfold Doc.getElement
  rw [h]

theorem main_eq (inp : RunInput) :
    main inp =
      if inp.initial_sel_ids = [] then
        ⟨inp.doc0, inp.app0, [], [Alert.pleaseSelect], true, Option.none, [], [], 0⟩
      else
        match pickObject (docAfterEnsure inp) ⟨inp.initial_sel_ids⟩ inp.pick with
        | Option.none =>
            ⟨docAfterEnsure inp, appAfterEnsure inp, ensureTxns inp,
              [Alert.selectStartPrompt, Alert.noStartingElement], true,
              Option.none, [], [], 0⟩
        | some start_elem =>
            match get_element_location start_elem.location with
            | Option.none =>
                ⟨docAfterEnsure inp, appAfterEnsure inp, ensureTxns inp,
                  [Alert.selectStartPrompt, Alert.noValidLocation], true,
                  Option.none, [], [], 0⟩
            | some start_point =>
                if intersOf inp = [] then
                  ⟨docAfterEnsure inp, appAfterEnsure inp, ensureTxns inp,
                    [Alert.selectStartPrompt, Alert.noIntersections], true,
                    some start_point, [], [], 0⟩
                else
                  ⟨(numberingPass start_point inp.initial_sel_ids
                      (gridSquarePass (intersOf inp) inp.initial_sel_ids
                        ⟨docAfterEnsure inp, [], [], 0⟩)).doc,
                    appAfterEnsure inp,
                    ensureTxns inp ++ [⟨"Assign Grid Square and Number"⟩],
                    [Alert.selectStartPrompt,
                      if (numberingPass start_point inp.initial_sel_ids
                          (gridSquarePass (intersOf inp) inp.initial_sel_ids
                            ⟨docAfterEnsure inp, [], [], 0⟩)).modified.length
                          = inp.initial_sel_ids.length
                      then Alert.success else Alert.notAllNumbered],
                    false, some start_point,
                    (numberingPass start_point inp.initial_sel_ids
                      (gridSquarePass (intersOf inp) inp.initial_sel_ids
                        ⟨docAfterEnsure inp, [], [], 0⟩)).modified,
                    (numberingPass start_point inp.initial_sel_ids
                      (gridSquarePass (intersOf inp) inp.initial_sel_ids
                        ⟨docAfterEnsure inp, [], [], 0⟩)).writes,
                    (numberingPass start_point inp.initial_sel_ids
                      (gridSquarePass (intersOf inp) inp.initial_sel_ids
                        ⟨docAfterEnsure inp, [], [], 0⟩)).distCalls⟩ := rfl

theorem main_cases (inp : RunInput) :
    (inp.initial_sel_ids = [] ∧
      main inp = ⟨inp.doc0, inp.app0, [], [Alert.pleaseSelect], true,
        Option.none, [], [], 0⟩) ∨
    (inp.initial_sel_ids ≠ [] ∧
      pickObject (docAfterEnsure inp) ⟨inp.initial_sel_ids⟩ inp.pick
        = Option.none ∧
      main inp = ⟨docAfterEnsure inp, appAfterEnsure inp, ensureTxns inp,
        [Alert.selectStartPrompt, Alert.noStartingElement], true,
        Option.none, [], [], 0⟩) ∨
    (∃ start_elem, inp.initial_sel_ids ≠ [] ∧
      pickObject (docAfterEnsure inp) ⟨inp.initial_sel_ids⟩ inp.pick
        = some start_elem ∧
      get_element_location start_elem.location = Option.none ∧
      main inp = ⟨docAfterEnsure inp, appAfterEnsure inp, ensureTxns inp,
        [Alert.selectStartPrompt, Alert.noValidLocation], true,
        Option.none, [], [], 0⟩) ∨
    (∃ start_elem start_point, inp.initial_sel_ids ≠ [] ∧
      pickObject (docAfterEnsure inp) ⟨inp.initial_sel_ids⟩ inp.pick
        = some start_elem ∧
      get_element_location start_elem.location = some start_point ∧
      intersOf inp = [] ∧
      main inp = ⟨docAfterEnsure inp, appAfterEnsure inp, ensureTxns inp,
        [Alert.selectStartPrompt, Alert.noIntersections], true,
        some start_point, [], [], 0⟩) ∨
    (∃ start_elem start_point, inp.initial_sel_ids ≠ [] ∧
      pickObject (docAfterEnsure inp) ⟨inp.initial_sel_ids⟩ inp.pick
        = some start_elem ∧
      get_element_location start_elem.location = some start_point ∧
      intersOf inp ≠ [] ∧
      main inp =
        ⟨(numberingPass start_point inp.initial_sel_ids
            (gridSquarePass (intersOf inp) inp.initial_sel_ids
              ⟨docAfterEnsure inp, [], [], 0⟩)).doc,
          appAfterEnsure inp,
          ensureTxns inp ++ [⟨"Assign Grid Square and Number"⟩],
          [Alert.selectStartPrompt,
            if (numberingPass start_point inp.initial_sel_ids
                (gridSquarePass (intersOf inp) inp.initial_sel_ids
                  ⟨docAfterEnsure inp, [], [], 0⟩)).modified.length
                = inp.initial_sel_ids.length
            then Alert.success else Alert.notAllNumbered],
          false, some start_point,
          (numberingPass start_point inp.initial_sel_ids
            (gridSquarePass (intersOf inp) inp.initial_sel_ids
              ⟨docAfterEnsure inp, [], [], 0⟩)).modified,
          (numberingPass start_point inp.initial_sel_ids
            (gridSquarePass (intersOf inp) inp.initial_sel_ids
              ⟨docAfterEnsure inp, [], [], 0⟩)).writes,
          (numberingPass start_point inp.initial_sel_ids
            (gridSquarePass (intersOf inp) inp.initial_sel_ids
              ⟨docAfterEnsure inp, [], [], 0⟩)).distCalls⟩) := by
  by_cases hsel : inp.initial_sel_ids = []
  · refine Or.inl ⟨hsel, ?_⟩
    rw [main_eq, if_pos hsel]
  · cases hpick : pickObject (docAfterEnsure inp) ⟨inp.initial_sel_ids⟩ inp.pick with
    | none =>
        refine Or.inr (Or.inl ⟨hsel, rfl, ?_⟩)
        rw [main_eq, if_neg hsel, hpick]
    | some start_elem =>
        cases hloc : get_element_location start_elem.location with
        | none =>
            refine Or.inr (Or.inr (Or.inl ⟨start_elem, hsel, rfl, hloc, ?_⟩))
            rw [main_eq, if_neg hsel, hpick]
            dsimp only
            rw [hloc]
        | some start_point =>
            by_cases hint : intersOf inp = []
            · refine Or.inr (Or.inr (Or.inr (Or.inl
                ⟨start_elem, start_point, hsel, rfl, hloc, hint, ?_⟩)))
              rw [main_eq, if_neg hsel, hpick]
              dsimp only
              rw [hloc]
              dsimp only
              rw [if_pos hint]
            · refine Or.inr (Or.inr (Or.inr (Or.inr
                ⟨start_elem, start_point, hsel, rfl, hloc, hint, ?_⟩)))
              rw [main_eq, if_neg hsel, hpick]
              dsimp only
              rw [hloc]
              dsimp only
              rw [if_neg hint]

/-- C8: each of the four guards — empty selection (line 178), failed pick
(line 201), unresolvable start location (line 205), empty intersection set
(line 221) — exits the script with its alert before the assignment
transaction: the run is an early exit, the respective alert is shown, no
element is changed and no parameter write happens.  (The binding map may have
been extended by `ensure_text_parameter` before the later guards, but no
element parameter value is ever written.) -/
theorem claim_C8 (inp : RunInput) :
    (inp.initial_sel_ids = [] →
      (main inp).earlyExit = true ∧ Alert.pleaseSelect ∈ (main inp).alerts ∧
      (main inp).finalDoc.elems = inp.doc0.elems ∧ (main inp).writes = []) ∧
    (pickObject (docAfterEnsure inp) ⟨inp.initial_sel_ids⟩ inp.pick
        = Option.none →
      inp.initial_sel_ids ≠ [] →
      (main inp).earlyExit = true ∧
      Alert.noStartingElement ∈ (main inp).alerts ∧
      (main inp).finalDoc.elems = inp.doc0.elems ∧ (main inp).writes = []) ∧
    (∀ start_elem,
      pickObject (docAfterEnsure inp) ⟨inp.initial_sel_ids⟩ inp.pick
          = some start_elem →
      get_element_location start_elem.location = Option.none →
      inp.initial_sel_ids ≠ [] →
      (main inp).earlyExit = true ∧
      Alert.noValidLocation ∈ (main inp).alerts ∧
      (main inp).finalDoc.elems = inp.doc0.elems ∧ (main inp).writes = []) ∧
    (∀ start_elem,
      pickObject (docAfterEnsure inp) ⟨inp.initial_sel_ids⟩ inp.pick
          = some start_elem →
      (get_element_location start_elem.location).isSome = true →
      intersOf inp = [] →
      inp.initial_sel_ids ≠ [] →
      (main inp).earlyExit = true ∧
      Alert.noIntersections ∈ (main inp).alerts ∧
      (main inp).finalDoc.elems = inp.doc0.elems ∧ (main inp).writes = []) := by
  rcases main_cases inp with ⟨hsel, hm⟩ | ⟨hsel, hpick, hm⟩
    | ⟨se, hsel, hpick, hloc, hm⟩ | ⟨se, sp, hsel, hpick, hloc, hint, hm⟩
    | ⟨se, sp, hsel, hpick, hloc, hint, hm⟩
  · refine ⟨fun _ => ?_, fun _ hne => absurd hsel hne,
      fun _ _ _ hne => absurd hsel hne, fun _ _ _ _ hne => absurd hsel hne⟩
    rw [hm]
    exact ⟨rfl, by simp, rfl, rfl⟩
  · refine ⟨fun h => absurd h hsel, fun _ _ => ?_, fun se' hpk _ _ => ?_,
      fun se' hpk _ _ _ => ?_⟩
    · rw [hm]
      exact ⟨rfl, by simp, docAfterEnsure_elems inp, rfl⟩
    · rw [hpick] at hpk
      simp at hpk
    · rw [hpick] at hpk
      simp at hpk
  · refine ⟨fun h => absurd h hsel, fun hpk _ => ?_, fun se' hpk hl _ => ?_,
      fun se' hpk hs _ _ => ?_⟩
    · rw [hpick] at hpk
      simp at hpk
    · rw [hm]
      exact ⟨rfl, by simp, docAfterEnsure_elems inp, rfl⟩
    · rw [hpick] at hpk
      have hse := Option.some_inj.mp hpk
      rw [← hse, hloc] at hs
      simp at hs
  · refine ⟨fun h => absurd h hsel, fun hpk _ => ?_, fun se' hpk hl _ => ?_,
      fun se' hpk hs hint2 _ => ?_⟩
    · rw [hpick] at hpk
      simp at hpk
    · rw [hpick] at hpk
      have hse := Option.some_inj.mp hpk
      rw [← hse, hloc] at hl
      simp at hl
    · rw [hm]
      exact ⟨rfl, by simp, docAfterEnsure_elems inp, rfl⟩
  · refine ⟨fun h => absurd h hsel, fun hpk _ => ?_, fun se' hpk hl _ => ?_,
      fun se' hpk hs hint2 _ => ?_⟩
    · rw [hpick] at hpk
      simp at hpk
    · rw [hpick] at hpk
      have hse := Option.some_inj.mp hpk
      rw [← hse, hloc] at hl
      simp at hl
    · exact absurd hint2 hint

/-- Witness for C8: the four guards exercised on four concrete runs — an
empty selection, a cancelled pick, a start element without a location, and a
model without intersections. -/
theorem claim_C8_witness :
    ((main ⟨docTwo, ⟨Option.none⟩, [], Option.none, [], originOracle⟩).earlyExit
        = true ∧
      Alert.pleaseSelect
        ∈ (main ⟨docTwo, ⟨Option.none⟩, [], Option.none, [], originOracle⟩).alerts ∧
      (main ⟨docTwo, ⟨Option.none⟩, [], Option.none, [],
          originOracle⟩).finalDoc.elems = docTwo.elems ∧
      (main ⟨docTwo, ⟨Option.none⟩, [], Option.none, [], originOracle⟩).writes
        = []) ∧
    ((main ⟨docTwo, ⟨Option.none⟩, [1, 2], Option.none, [gridA, grid1],
          originOracle⟩).earlyExit = true ∧
      Alert.noStartingElement
        ∈ (main ⟨docTwo, ⟨Option.none⟩, [1, 2], Option.none, [gridA, grid1],
            originOracle⟩).alerts ∧
      (main ⟨docTwo, ⟨Option.none⟩, [1, 2], Option.none, [gridA, grid1],
          originOracle⟩).finalDoc.elems = docTwo.elems ∧
      (main ⟨docTwo, ⟨Option.none⟩, [1, 2], Option.none, [gridA, grid1],
          originOracle⟩).writes = []) ∧
    ((main ⟨⟨[elemNoLoc], []⟩, ⟨Option.none⟩, [1], some 1, [gridA, grid1],
          originOracle⟩).earlyExit = true ∧
      Alert.noValidLocation
        ∈ (main ⟨⟨[elemNoLoc], []⟩, ⟨Option.none⟩, [1], some 1, [gridA, grid1],
            originOracle⟩).alerts ∧
      (main ⟨⟨[elemNoLoc], []⟩, ⟨Option.none⟩, [1], some 1, [gridA, grid1],
          originOracle⟩).finalDoc.elems = (⟨[elemNoLoc], []⟩ : Doc).elems ∧
      (main ⟨⟨[elemNoLoc], []⟩, ⟨Option.none⟩, [1], some 1, [gridA, grid1],
          originOracle⟩).writes = []) ∧
    ((main ⟨docTwo, ⟨Option.none⟩, [1, 2], some 1, [], originOracle⟩).earlyExit
        = true ∧
      Alert.noIntersections
        ∈ (main ⟨docTwo, ⟨Option.none⟩, [1, 2], some 1, [], originOracle⟩).alerts ∧
      (main ⟨docTwo, ⟨Option.none⟩, [1, 2], some 1, [],
          originOracle⟩).finalDoc.elems = docTwo.elems ∧
      (main ⟨docTwo, ⟨Option.none⟩, [1, 2], some 1, [], originOracle⟩).writes
        = []) :=
  ⟨(claim_C8 _).1 rfl,
    (claim_C8 _).2.1 (by decide) (by decide),
    (claim_C8 _).2.2.1 elemNoLoc (by decide) (by decide) (by decide),
    (claim_C8 _).2.2.2 (elemBoth 1 ⟨1, 1, 0⟩) (by decide) (by decide) rfl
      (by decide)⟩

theorem ensure_txns_len (app : App) (doc : Doc) (pname : String)
    (categories : List Category) :
    (ensure_text_parameter app doc pname categories).txns.length ≤ 1 := by
  rcases ensure_txns_cases app doc pname categories with h | h | h <;>
    simp [h]

theorem ensure_no_assign (app : App) (doc : Doc) (pname : String)
    (categories : List Category)
    (hp : pname = "Grid Square" ∨ pname = "Number") :
    (ensure_text_parameter app doc pname categories).txns.countP
        (fun t => decide (t.tname = "Assign Grid Square and Number")) = 0 := by
  rcases ensure_txns_cases app doc pname categories with h | h | h <;>
    rw [h] <;> rcases hp with hp | hp <;> subst hp <;> decide

theorem ensureTxns_no_assign (inp : RunInput) :
    (ensureTxns inp).countP
        (fun t => decide (t.tname = "Assign Grid Square and Number")) = 0 := by
  unfold ensureTxns
  rw [List.countP_append,
    ensure_no_assign _ _ _ _ (Or.inl rfl),
    ensure_no_assign _ _ _ _ (Or.inr rfl)]

theorem ensureTxns_len (inp : RunInput) : (ensureTxns inp).length ≤ 2 := by
  unfold ensureTxns
  rw [List.length_append]
  have h1 := ensure_txns_len inp.app0 inp.doc0 "Grid Square"
    (selectedCategories inp.doc0 inp.initial_sel_ids)
  have h2 := ensure_txns_len
    (ensure_text_parameter inp.app0 inp.doc0 "Grid Square"
      (selectedCategories inp.doc0 inp.initial_sel_ids)).app
    (ensure_text_parameter inp.app0 inp.doc0 "Grid Square"
      (selectedCategories inp.doc0 inp.initial_sel_ids)).doc
    "Number" (selectedCategories inp.doc0 inp.initial_sel_ids)
  omega

unseal List.merge List.mergeSort

/-- C3 counterexample: a complete run on a document with no bindings commits
three transactions — two parameter creations and the assignment transaction —
each of which modifies the document, so the run is not a single all-or-nothing
transaction. -/
theorem claim_C3_counterexample :
    (main inpFull).txns
        = [⟨"Add Project Parameter: Grid Square"⟩,
            ⟨"Add Project Parameter: Number"⟩,
            ⟨"Assign Grid Square and Number"⟩] ∧
    (main inpFull).earlyExit = false ∧
    (main inpFull).finalDoc.bindings ≠ inpFull.doc0.bindings ∧
    (main inpFull).writes ≠ [] := by
  refine ⟨by decide, by decide, by decide, by decide⟩

/-- C3 (amended): all element-parameter writes happen inside the single
"Assign Grid Square and Number" transaction — a completed run commits exactly
one such transaction and its final document differs from the post-setup
document only by the two in-transaction passes; `ensure_text_parameter` never
touches elements and commits at most one transaction per call, so a run
commits between zero and two additional setup transactions (at most three in
total), rather than exactly one transaction overall. -/
theorem claim_C3 (inp : RunInput) :
    (main inp).txns.length ≤ 3 ∧
    ((main inp).txns.countP
        (fun t => decide (t.tname = "Assign Grid Square and Number"))
      = if (main inp).earlyExit then 0 else 1) ∧
    (∀ (a : App) (d : Doc) (n : String) (cs : List Category),
      (ensure_text_parameter a d n cs).doc.elems = d.elems ∧
      (ensure_text_parameter a d n cs).txns.length ≤ 1) ∧
    ((main inp).earlyExit = false →
      ∃ sp, (main inp).startPoint = some sp ∧
        (main inp).finalDoc
          = (numberingPass sp inp.initial_sel_ids
              (gridSquarePass (intersOf inp) inp.initial_sel_ids
                ⟨docAfterEnsure inp, [], [], 0⟩)).doc) := by
  have hens : ∀ (a : App) (d : Doc) (n : String) (cs : List Category),
      (ensure_text_parameter a d n cs).doc.elems = d.elems ∧
      (ensure_text_parameter a d n cs).txns.length ≤ 1 :=
    fun a d n cs => ⟨ensure_elems a d n cs, ensure_txns_len a d n cs⟩
  have hlen := ensureTxns_len inp
  have hna := ensureTxns_no_assign inp
  rcases main_cases inp with ⟨hsel, hm⟩ | ⟨hsel, hpick, hm⟩
    | ⟨se, hsel, hpick, hloc, hm⟩ | ⟨se, sp, hsel, hpick, hloc, hint, hm⟩
    | ⟨se, sp, hsel, hpick, hloc, hint, hm⟩
  · rw [hm]
    exact ⟨by simp, by simp, hens, by simp⟩
  · rw [hm]
    refine ⟨by simpa using Nat.le_trans hlen (by omega), ?_, hens, by simp⟩
    simpa using hna
  · rw [hm]
    refine ⟨by simpa using Nat.le_trans hlen (by omega), ?_, hens, by simp⟩
    simpa using hna
  · rw [hm]
    refine ⟨by simpa using Nat.le_trans hlen (by omega), ?_, hens, by simp⟩
    simpa using hna
  · rw [hm]
    refine ⟨?_, ?_, hens, ?_⟩
    · simp only [List.length_append, List.length_singleton]
      omega
    · rw [List.countP_append, hna]
      simp [List.countP_cons]
    · intro _
      exact ⟨sp, rfl, rfl⟩

/-- Witness for C3 (amended) on the concrete full run `inpFull`. -/
theorem claim_C3_witness :
    (main inpFull).txns.length ≤ 3 ∧
    ((main inpFull).txns.countP
        (fun t => decide (t.tname = "Assign Grid Square and Number"))
      = if (main inpFull).earlyExit then 0 else 1) ∧
    (∀ (a : App) (d : Doc) (n : String) (cs : List Category),
      (ensure_text_parameter a d n cs).doc.elems = d.elems ∧
      (ensure_text_parameter a d n cs).txns.length ≤ 1) ∧
    ((main inpFull).earlyExit = false →
      ∃ sp, (main inpFull).startPoint = some sp ∧
        (main inpFull).finalDoc
          = (numberingPass sp inpFull.initial_sel_ids
              (gridSquarePass (intersOf inpFull) inpFull.initial_sel_ids
                ⟨docAfterEnsure inpFull, [], [], 0⟩)).doc) :=
  claim_C3 inpFull

theorem modinv_insert {m : List Nat} {w : List (Nat × String × String)}
    (hnd : m.Nodup) (hiff : ∀ j, j ∈ m ↔ ∃ pn v, (j, pn, v) ∈ w)
    (i : Nat) (pn v : String) :
    (insertId m i).Nodup ∧
    ∀ j, j ∈ insertId m i ↔ ∃ pn' v', (j, pn', v') ∈ w ++ [(i, pn, v)] := by
  constructor
  · unfold insertId
    by_cases h : i ∈ m
    · rw [if_pos h]
      exact hnd
    · rw [if_neg h, List.nodup_append]
      exact ⟨hnd, List.nodup_singleton i,
        fun a ha hb => h ((List.mem_singleton.mp hb) ▸ ha)⟩
  · intro j
    unfold insertId
    constructor
    · intro hj
      by_cases h : i ∈ m
      · rw [if_pos h] at hj
        obtain ⟨pn', v', hw⟩ := (hiff j).mp hj
        exact ⟨pn', v', List.mem_append.mpr (Or.inl hw)⟩
      · rw [if_neg h] at hj
        rcases List.mem_append.mp hj with hj1 | hj1
        · obtain ⟨pn', v', hw⟩ := (hiff j).mp hj1
          exact ⟨pn', v', List.mem_append.mpr (Or.inl hw)⟩
        · rw [List.mem_singleton.mp hj1]
          exact ⟨pn, v, List.mem_append.mpr (Or.inr (by simp))⟩
    · rintro ⟨pn', v', hw⟩
      rcases List.mem_append.mp hw with hw1 | hw1
      · have hj : j ∈ m := (hiff j).mpr ⟨pn', v', hw1⟩
        by_cases h : i ∈ m
        · rw [if_pos h]
          exact hj
        · rw [if_neg h]
          exact List.mem_append.mpr (Or.inl hj)
      · have hji : j = i := by
          have := List.mem_singleton.mp hw1
          exact congrArg Prod.fst this
        subst hji
        by_cases h : j ∈ m
        · rw [if_pos h]
          exact h
        · rw [if_neg h]
          exact List.mem_append.mpr (Or.inr (by simp))

theorem gridSquareBody_modinv (inters : List (XYZ × Grid × Grid))
    (st : PassState) (i : Nat) (h : ModInv st) :
    ModInv (gridSquareBody inters st i) := by
  unfold gridSquareBody
  split
  · exact h
  next elem hget =>
    split
    · exact h
    next pt hloc =>
      dsimp only
      split
      · exact h
      next vh hcl =>
        split
        · exact h
        next prm hlk =>
          split
          · exact h
          · exact modinv_insert h.1 h.2 elem.eid "Grid Square" _

theorem gridSquarePass_modinv (inters : List (XYZ × Grid × Grid)) :
    ∀ (sel : List Nat) (st : PassState), ModInv st →
      ModInv (gridSquarePass inters sel st)
  | [], _, h => h
  | i :: rest, st, h =>
      gridSquarePass_modinv inters rest (gridSquareBody inters st i)
        (gridSquareBody_modinv inters st i h)

theorem numberingBody_modinv (stn : PassState × Nat) (p : Nat × ℤ)
    (h : ModInv stn.1) : ModInv (numberingBody stn p).1 := by
  unfold numberingBody
  split
  · exact h
  next elem hget =>
    split
    · exact h
    next prm hlk =>
      split
      · exact h
      · exact modinv_insert h.1 h.2 elem.eid "Number" _

theorem numberingFold_modinv :
    ∀ (l : List (Nat × ℤ)) (stn : PassState × Nat), ModInv stn.1 →
      ModInv ((l.foldl numberingBody stn).1)
  | [], _, h => h
  | p :: rest, stn, h =>
      numberingFold_modinv rest (numberingBody stn p)
        (numberingBody_modinv stn p h)

theorem numberingPass_modinv (sp : XYZ) (sel : List Nat) (st : PassState)
    (h : ModInv st) : ModInv (numberingPass sp sel st) := by
  rw [numberingPass_eq]
  exact numberingFold_modinv _ _ h

/-- C9: the final success report appears exactly when the number of distinct
element ids that received at least one parameter write equals the number of
initially selected elements — `modified_elem_ids` is a duplicate-free set
holding exactly the ids with at least one write; an element counted after a
single write may have received only one of the two parameters, as the
concrete run `inpGSOnly` shows (success is reported although its only element
received "Grid Square" but no "Number"). -/
theorem claim_C9 (inp : RunInput) :
    ((main inp).earlyExit = false →
      (Alert.success ∈ (main inp).alerts ↔
        (main inp).modified.length = inp.initial_sel_ids.length)) ∧
    ((main inp).earlyExit = true → Alert.success ∉ (main inp).alerts) ∧
    (main inp).modified.Nodup ∧
    (∀ i, i ∈ (main inp).modified ↔
      ∃ pn v, (i, pn, v) ∈ (main inp).writes) ∧
    (Alert.success ∈ (main inpGSOnly).alerts ∧
      (∃ v, (1, "Grid Square", v) ∈ (main inpGSOnly).writes) ∧
      (∀ v, (1, "Number", v) ∉ (main inpGSOnly).writes)) := by
  have hdemo : Alert.success ∈ (main inpGSOnly).alerts ∧
      (∃ v, (1, "Grid Square", v) ∈ (main inpGSOnly).writes) ∧
      (∀ v, (1, "Number", v) ∉ (main inpGSOnly).writes) := by
    refine ⟨by decide, ⟨"A-1", by decide⟩, ?_⟩
    intro v hv
    have hw : (main inpGSOnly).writes = [(1, "Grid Square", "A-1")] := by decide
    rw [hw] at hv
    simp at hv
  rcases main_cases inp with ⟨hsel, hm⟩ | ⟨hsel, hpick, hm⟩
    | ⟨se, hsel, hpick, hloc, hm⟩ | ⟨se, sp, hsel, hpick, hloc, hint, hm⟩
    | ⟨se, sp, hsel, hpick, hloc, hint, hm⟩
  · rw [hm]
    exact ⟨fun h => by simp at h, fun _ => by simp, by simp, by simp, hdemo⟩
  · rw [hm]
    exact ⟨fun h => by simp at h, fun _ => by simp, by simp, by simp, hdemo⟩
  · rw [hm]
    exact ⟨fun h => by simp at h, fun _ => by simp, by simp, by simp, hdemo⟩
  · rw [hm]
    exact ⟨fun h => by simp at h, fun _ => by simp, by simp, by simp, hdemo⟩
  · have hmi : ModInv (numberingPass sp inp.initial_sel_ids
        (gridSquarePass (intersOf inp) inp.initial_sel_ids
          ⟨docAfterEnsure inp, [], [], 0⟩)) :=
      numberingPass_modinv sp inp.initial_sel_ids _
        (gridSquarePass_modinv (intersOf inp) inp.initial_sel_ids
          ⟨docAfterEnsure inp, [], [], 0⟩ ⟨List.nodup_nil, by simp⟩)
    rw [hm]
    refine ⟨fun _ => ?_, fun h => by simp at h, hmi.1, hmi.2, hdemo⟩
    by_cases hc : (numberingPass sp inp.initial_sel_ids
        (gridSquarePass (intersOf inp) inp.initial_sel_ids
          ⟨docAfterEnsure inp, [], [], 0⟩)).modified.length
        = inp.initial_sel_ids.length
    · simp [hc]
    · simp [hc]

/-- Witness for C9 on the concrete full run `inpFull`, where both elements
are written and the success report shows. -/
theorem claim_C9_witness :
    (Alert.success ∈ (main inpFull).alerts ↔
      (main inpFull).modified.length = inpFull.initial_sel_ids.length) ∧
    (main inpFull).modified.Nodup ∧
    (∀ i, i ∈ (main inpFull).modified ↔
      ∃ pn v, (i, pn, v) ∈ (main inpFull).writes) ∧
    (Alert.success ∈ (main inpGSOnly).alerts ∧
      (∃ v, (1, "Grid Square", v) ∈ (main inpGSOnly).writes) ∧
      (∀ v, (1, "Number", v) ∉ (main inpGSOnly).writes)) :=
  ⟨(claim_C9 inpFull).1 (by decide), (claim_C9 inpFull).2.2.1,
    (claim_C9 inpFull).2.2.2.1, (claim_C9 inpFull).2.2.2.2⟩

theorem pickObject_mem {d : Doc} {allowed : List Nat} {choice : Option Nat}
    {e : Element} (h : pickObject d ⟨allowed⟩ choice = some e) :
    e.eid ∈ allowed ∧ d.getElement e.eid = some e := by
  unfold pickObject at h
  cases choice with
  | none => simp at h
  | some c =>
      dsimp only at h
      cases hget : d.getElement c with
      | none => rw [hget] at h; simp at h
      | some e' =>
          rw [hget] at h
          dsimp only at h
          by_cases hall : InitialSelectionFilter.AllowElement ⟨allowed⟩ e'
          · rw [if_pos hall] at h
            have he : e' = e := Option.some_inj.mp h
            subst he
            have hmem : e'.eid ∈ allowed := by
              unfold InitialSelectionFilter.AllowElement at hall
              simpa using hall
            refine ⟨hmem, ?_⟩
            rw [getElement_some_eid hget]
            exact hget
          · rw [if_neg hall] at h
            simp at h

/-- C10: the `InitialSelectionFilter` accepts an element exactly when its id
is among the allowed ids and rejects every reference pick, so the pick (host
`PickObject`, which returns only filter-accepted elements) can only yield an
initially selected element; consequently every completed run numbers from the
location of some initially selected element of the original document. -/
theorem claim_C10 :
    (∀ (f : InitialSelectionFilter) (e : Element),
      f.AllowElement e = true ↔ e.eid ∈ f.allowed_ids) ∧
    (∀ (f : InitialSelectionFilter) (r : Nat) (p : XYZ),
      f.AllowReference r p = false) ∧
    (∀ (d : Doc) (allowed : List Nat) (choice : Option Nat) (e : Element),
      pickObject d ⟨allowed⟩ choice = some e →
      e.eid ∈ allowed ∧ d.getElement e.eid = some e) ∧
    (∀ inp : RunInput, (main inp).earlyExit = false →
      ∃ e : Element, e.eid ∈ inp.initial_sel_ids ∧
        inp.doc0.getElement e.eid = some e ∧
        (get_element_location e.location).isSome = true ∧
        (main inp).startPoint = get_element_location e.location) := by
  refine ⟨?_, fun f r p => rfl, fun d allowed choice e h => pickObject_mem h, ?_⟩
  · intro f e
    unfold InitialSelectionFilter.AllowElement
    simp
  · intro inp hfin
    rcases main_cases inp with ⟨hsel, hm⟩ | ⟨hsel, hpick, hm⟩
      | ⟨se, hsel, hpick, hloc, hm⟩ | ⟨se, sp, hsel, hpick, hloc, hint, hm⟩
      | ⟨se, sp, hsel, hpick, hloc, hint, hm⟩
    · rw [hm] at hfin
      simp at hfin
    · rw [hm] at hfin
      simp at hfin
    · rw [hm] at hfin
      simp at hfin
    · rw [hm] at hfin
      simp at hfin
    · obtain ⟨hmem, hget⟩ := pickObject_mem hpick
      refine ⟨se, hmem, ?_, by simp [hloc], ?_⟩
      · rw [← hget]
        exact (getElement_congr_elems (docAfterEnsure_elems inp) se.eid).symm
      · rw [hm, hloc]

/-- Witness for C10: a concrete accepted pick and the concrete full run
`inpFull`, whose start point is the location of selected element 1. -/
theorem claim_C10_witness :
    ((InitialSelectionFilter.AllowElement ⟨[1, 2]⟩ (elemBoth 1 ⟨1, 1, 0⟩) = true
        ↔ (elemBoth 1 ⟨1, 1, 0⟩).eid ∈ ([1, 2] : List Nat)) ∧
      InitialSelectionFilter.AllowReference ⟨[1, 2]⟩ 7 ⟨0, 0, 0⟩ = false) ∧
    ((elemBoth 1 ⟨1, 1, 0⟩).eid ∈ ([1, 2] : List Nat) ∧
      docTwo.getElement (elemBoth 1 ⟨1, 1, 0⟩).eid = some (elemBoth 1 ⟨1, 1, 0⟩)) ∧
    (∃ e : Element, e.eid ∈ inpFull.initial_sel_ids ∧
      inpFull.doc0.getElement e.eid = some e ∧
      (get_element_location e.location).isSome = true ∧
      (main inpFull).startPoint = get_element_location e.location) :=
  ⟨⟨(claim_C10).1 ⟨[1, 2]⟩ (elemBoth 1 ⟨1, 1, 0⟩),
      (claim_C10).2.1 ⟨[1, 2]⟩ 7 ⟨0, 0, 0⟩⟩,
    (claim_C10).2.2.1 docTwo [1, 2] (some 1) (elemBoth 1 ⟨1, 1, 0⟩) (by decide),
    (claim_C10).2.2.2 inpFull (by decide)⟩

end GridTools
